import Mathlib

/-!
# Verification of the collab server session `Store`

Shallow embedding of `src/crates/collab/src/rpc/store.rs`.

Modelling conventions:
* `BTreeMap`/`HashMap` become association lists (`AList`), `BTreeSet`/`HashSet`
  become `List Nat` with set-like insert/remove; lookup sees the first
  occurrence of a key, matching map semantics on the duplicate-free lists the
  Rust types guarantee (duplicate-freeness appears in `StoreWF`).
* `OffsetDateTime` becomes `Int` (a linearly ordered time line with
  subtraction); operations that call `now_utc()` take the current time as an
  explicit `now` argument.
* Identifier newtypes (`ConnectionId`, `UserId`, `ProjectId`, `ChannelId`,
  `RoomId`) become `Nat`; `ReplicaId` (`u16` in the source) becomes `Nat` —
  replica ids stay far below `2^16` in any store whose guest count does, so
  no wrap-around is modelled.
* `&mut self` methods become explicit state passing: a method returning
  `Result<T>` becomes `... → Store → Except String T × Store` (carrying the
  possibly-mutated store also on the error path), a method returning
  `Option<T>` becomes `... → Store → Option T × Store`.  Error strings are
  the exact `anyhow!` messages of the source.
* `proto::Entry`, `proto::DiagnosticSummary` and `proto::LanguageServer` are
  wire records; the store reads only `Entry.id`, `Entry.path` and
  `DiagnosticSummary.path`, so the model keeps those fields plus nothing the
  store never consults.
-/

namespace ZedStore

/-! ## Association-list maps and list sets -/

abbrev AList (K : Type) (V : Type) := List (K × V)

def lookupA {K V : Type} [DecidableEq K] (k : K) : AList K V → Option V
  | [] => none
  | (k', v) :: t => if k' = k then some v else lookupA k t

def containsKeyA {K V : Type} [DecidableEq K] (k : K) (l : AList K V) : Bool :=
  (lookupA k l).isSome

def upsert {K V : Type} [DecidableEq K] (k : K) (v : V) : AList K V → AList K V
  | [] => [(k, v)]
  | (k', v') :: t => if k' = k then (k, v) :: t else (k', v') :: upsert k v t

def modifyA {K V : Type} [DecidableEq K] (k : K) (f : V → V) : AList K V → AList K V
  | [] => []
  | (k', v') :: t => if k' = k then (k', f v') :: t else (k', v') :: modifyA k f t

def eraseA {K V : Type} [DecidableEq K] (k : K) (l : AList K V) : AList K V :=
  l.filter (fun p => p.1 ≠ k)

def keysA {K V : Type} (l : AList K V) : List K := l.map (·.1)

/-- `HashSet::insert` / `BTreeSet::insert` on a duplicate-free list. -/
def insertS (x : Nat) (l : List Nat) : List Nat := if x ∈ l then l else l ++ [x]

/-- `HashSet::remove` / `BTreeSet::remove`. -/
def removeS (x : Nat) (l : List Nat) : List Nat := l.filter (fun y => y ≠ x)

/-! ## Wire records (`rpc::proto`, `rpc::Receipt`) -/

/-- `Receipt<proto::JoinProject>`: originating connection plus message id. -/
structure Receipt where
  sender_id : Nat
  message_id : Nat
deriving DecidableEq

/-- `proto::Entry` restricted to the fields the store reads. -/
structure Entry where
  id : Nat
  path : String
deriving DecidableEq

/-- `proto::DiagnosticSummary` restricted to the fields the store reads. -/
structure DiagnosticSummary where
  path : String
  error_count : Nat
  warning_count : Nat
deriving DecidableEq

/-- `proto::LanguageServer`. -/
structure LanguageServer where
  id : Nat
  name : String
deriving DecidableEq

/-- `proto::WorktreeMetadata`. -/
structure WorktreeMetadata where
  id : Nat
  root_name : String
  visible : Bool
deriving DecidableEq

/-- `proto::Participant`.  The `location` field is always set to the constant
`External` variant by the store and never read back, so it is omitted. -/
structure Participant where
  user_id : Nat
  peer_id : Nat
  project_ids : List Nat
deriving DecidableEq

/-- `proto::Room`. -/
structure Room where
  participants : List Participant
  pending_user_ids : List Nat
deriving DecidableEq

instance : Inhabited Room := ⟨⟨[], []⟩⟩

/-! ## Store records -/

structure Collaborator where
  replica_id : Nat
  user_id : Nat
  last_activity : Option Int
  admin : Bool
deriving DecidableEq

structure Worktree where
  root_name : String
  visible : Bool
  entries : AList Nat Entry
  diagnostic_summaries : AList String DiagnosticSummary
  scan_id : Nat
  is_complete : Bool
deriving DecidableEq

/-- `Worktree::default()`. -/
instance : Inhabited Worktree := ⟨⟨"", false, [], [], 0, false⟩⟩

structure Project where
  online : Bool
  host_connection_id : Nat
  host : Collaborator
  guests : AList Nat Collaborator
  join_requests : AList Nat (List Receipt)
  active_replica_ids : List Nat
  worktrees : AList Nat Worktree
  language_servers : List LanguageServer
deriving DecidableEq

structure ConnectionState where
  user_id : Nat
  admin : Bool
  projects : List Nat
  requested_projects : List Nat
  channels : List Nat
deriving DecidableEq

inductive RoomState where
  | joined
  | calling (room_id : Nat)
deriving DecidableEq

structure UserConnectionState where
  connection_ids : List Nat
  room : Option RoomState
deriving DecidableEq

structure Channel where
  connection_ids : List Nat
deriving DecidableEq

structure Store where
  connections : AList Nat ConnectionState
  connections_by_user_id : AList Nat UserConnectionState
  next_room_id : Nat
  rooms : AList Nat Room
  projects : AList Nat Project
  channels : AList Nat Channel
deriving DecidableEq

/-! ## Returned value records -/

structure RemovedConnectionState where
  user_id : Nat
  hosted_projects : AList Nat Project
  guest_project_ids : List Nat
  contact_ids : List Nat
deriving DecidableEq

structure LeftProject where
  host_user_id : Nat
  host_connection_id : Nat
  connection_ids : List Nat
  remove_collaborator : Bool
  cancel_request : Option Nat
  unshare : Bool
deriving DecidableEq

structure UnsharedProject where
  guests : AList Nat Collaborator
  pending_join_requests : AList Nat (List Receipt)
deriving DecidableEq

structure Metrics where
  connections : Nat
  registered_projects : Nat
  active_projects : Nat
  shared_projects : Nat
deriving DecidableEq

/-! ## Error messages (exact strings of the source `anyhow!` calls) -/

def unknownConnectionMsg : String := "unknown connection"
def noSuchConnectionMsg : String := "no such connection"
def noSuchProjectMsg : String := "no such project"
def noSuchRoomMsg : String := "no such room"
def roomOnceMsg : String := "cannot participate in more than one room at once"
def recipientBusyMsg : String := "recipient is already on another call"
def duplicateCallMsg : String := "cannot call the same user more than once"
def projectOfflineMsg : String := "project is not online"
def unwrapUserStateMsg : String := "unwrap failed on connections_by_user_id"
def unwrapConnectionMsg : String := "unwrap failed on connections.remove"

/-! ## `Project` helper methods -/

def Project.guest_connection_ids (p : Project) : List Nat := keysA p.guests

def Project.connection_ids (p : Project) : List Nat :=
  keysA p.guests ++ [p.host_connection_id]

/-- `Project::is_active_since`: some collaborator (guests chained with the
host) has `last_activity` strictly after `start_time`. -/
def Project.is_active_since (p : Project) (start_time : Int) : Bool :=
  (p.guests.map (·.2) ++ [p.host]).any (fun collaborator =>
    match collaborator.last_activity with
    | some active_time => decide (start_time < active_time)
    | none => false)

/-! ## Store operations -/

/-- `ACTIVE_PROJECT_TIMEOUT`: 60 seconds. -/
def activeProjectTimeout : Int := 60

/-- The loop body of `Store::metrics`, bumping the
(registered, active, shared) counters for one project entry. -/
def metricsStep (s : Store) (active_window_start : Int)
    (acc : Nat × Nat × Nat) (pr : Nat × Project) : Nat × Nat × Nat :=
  match lookupA pr.2.host_connection_id s.connections with
  | some connection =>
    if !connection.admin then
      if pr.2.is_active_since active_window_start then
        if !(pr.2.guests.isEmpty) then (acc.1 + 1, acc.2.1 + 1, acc.2.2 + 1)
        else (acc.1 + 1, acc.2.1 + 1, acc.2.2)
      else (acc.1 + 1, acc.2.1, acc.2.2)
    else acc
  | none => acc

/-- `Store::metrics`, with `now` passed explicitly for `now_utc()`. -/
def metrics (s : Store) (now : Int) : Metrics :=
  let active_window_start : Int := now - activeProjectTimeout
  let connections := (s.connections.filter (fun c => !c.2.admin)).length
  let counts := s.projects.foldl (metricsStep s active_window_start) (0, 0, 0)
  ⟨connections, counts.1, counts.2.1, counts.2.2⟩

/-- `Store::add_connection`. -/
def add_connection (connection_id user_id : Nat) (admin : Bool) (s : Store) : Store :=
  let connections := upsert connection_id
    { user_id := user_id, admin := admin, projects := [], requested_projects := [],
      channels := [] } s.connections
  let by_user :=
    if containsKeyA user_id s.connections_by_user_id then
      modifyA user_id
        (fun u => { u with connection_ids := insertS connection_id u.connection_ids })
        s.connections_by_user_id
    else
      s.connections_by_user_id ++
        [(user_id, { connection_ids := insertS connection_id [], room := none })]
  { s with connections := connections, connections_by_user_id := by_user }

/-- `Store::user_id_for_connection`. -/
def user_id_for_connection (connection_id : Nat) (s : Store) : Except String Nat :=
  match lookupA connection_id s.connections with
  | none => .error unknownConnectionMsg
  | some c => .ok c.user_id

/-- `Store::connection_ids_for_user` (collected to a list). -/
def connection_ids_for_user (user_id : Nat) (s : Store) : List Nat :=
  match lookupA user_id s.connections_by_user_id with
  | none => []
  | some state => state.connection_ids

/-- `Store::join_channel`. -/
def join_channel (connection_id channel_id : Nat) (s : Store) : Store :=
  match lookupA connection_id s.connections with
  | none => s
  | some _ =>
    let connections := modifyA connection_id
      (fun c => { c with channels := insertS channel_id c.channels }) s.connections
    let channels :=
      if containsKeyA channel_id s.channels then
        modifyA channel_id
          (fun ch => { ch with connection_ids := insertS connection_id ch.connection_ids })
          s.channels
      else s.channels ++ [(channel_id, ⟨insertS connection_id []⟩)]
    { s with connections := connections, channels := channels }

/-- `Store::leave_channel`. -/
def leave_channel (connection_id channel_id : Nat) (s : Store) : Store :=
  match lookupA connection_id s.connections with
  | none => s
  | some _ =>
    let connections := modifyA connection_id
      (fun c => { c with channels := removeS channel_id c.channels }) s.connections
    let channels :=
      match lookupA channel_id s.channels with
      | none => s.channels
      | some ch =>
        let remaining := removeS connection_id ch.connection_ids
        if remaining = [] then eraseA channel_id s.channels
        else upsert channel_id ⟨remaining⟩ s.channels
    { s with connections := connections, channels := channels }

/-- `Store::create_room`. -/
def create_room (creator_connection_id : Nat) (s : Store) :
    Except String Nat × Store :=
  match lookupA creator_connection_id s.connections with
  | none => (.error noSuchConnectionMsg, s)
  | some connection =>
    match lookupA connection.user_id s.connections_by_user_id with
    | none => (.error noSuchConnectionMsg, s)
    | some user_connection_state =>
      if user_connection_state.room ≠ none then (.error roomOnceMsg, s)
      else
        let room : Room :=
          ⟨[{ user_id := connection.user_id, peer_id := creator_connection_id,
              project_ids := [] }], []⟩
        let room_id := s.next_room_id
        (.ok room_id,
          { s with
            next_room_id := room_id + 1,
            rooms := upsert room_id room s.rooms,
            connections_by_user_id := modifyA connection.user_id
              (fun u => { u with room := some .joined }) s.connections_by_user_id })

/-- `Store::join_room`. -/
def join_room (room_id connection_id : Nat) (s : Store) :
    Except String (Room × List Nat) × Store :=
  match lookupA connection_id s.connections with
  | none => (.error noSuchConnectionMsg, s)
  | some connection =>
    let user_id := connection.user_id
    let recipient_connection_ids := connection_ids_for_user user_id s
    match lookupA user_id s.connections_by_user_id with
    | none => (.error noSuchConnectionMsg, s)
    | some user_connection_state =>
      if ¬(user_connection_state.room = none ∨
            user_connection_state.room = some (.calling room_id)) then
        (.error roomOnceMsg, s)
      else
        match lookupA room_id s.rooms with
        | none => (.error noSuchRoomMsg, s)
        | some room =>
          if user_id ∉ room.pending_user_ids then (.error noSuchRoomMsg, s)
          else
            let room' : Room :=
              { participants := room.participants ++
                  [{ user_id := user_id, peer_id := connection_id, project_ids := [] }],
                pending_user_ids :=
                  room.pending_user_ids.filter (fun pending => pending ≠ user_id) }
            (.ok (room', recipient_connection_ids),
              { s with
                rooms := upsert room_id room' s.rooms,
                connections_by_user_id := modifyA user_id
                  (fun u => { u with room := some .joined }) s.connections_by_user_id })

/-- The store mutation of a successful `Store::call`: record the pending
invite in the room and mark the invitee as being called. -/
def callSuccessStore (room_id to_user_id : Nat) (room' : Room) (s : Store) :
    Store :=
  let by_user := modifyA to_user_id
    (fun u => { u with room := some (.calling room_id) }) s.connections_by_user_id
  { s with rooms := upsert room_id room' s.rooms,
           connections_by_user_id := by_user }

/-- `Store::call`. -/
def call (room_id from_connection_id to_user_id : Nat) (s : Store) :
    Except String (Nat × List Nat × Room) × Store :=
  match user_id_for_connection from_connection_id s with
  | .error e => (.error e, s)
  | .ok from_user_id =>
    let to_connection_ids := connection_ids_for_user to_user_id s
    match lookupA to_user_id s.connections_by_user_id with
    | none => (.error noSuchConnectionMsg, s)
    | some to_user_connection_state =>
      if to_user_connection_state.room ≠ none then (.error recipientBusyMsg, s)
      else
        match lookupA room_id s.rooms with
        | none => (.error noSuchRoomMsg, s)
        | some room =>
          if ¬ room.participants.any (fun participant =>
              participant.peer_id = from_connection_id) then
            (.error noSuchRoomMsg, s)
          else if room.pending_user_ids.any (fun user_id => user_id = to_user_id) then
            (.error duplicateCallMsg, s)
          else
            let room' := { room with
              pending_user_ids := room.pending_user_ids ++ [to_user_id] }
            (.ok (from_user_id, to_connection_ids, room'),
              callSuccessStore room_id to_user_id room' s)

/-- `Store::register_project`. -/
def register_project (host_connection_id project_id : Nat) (online : Bool)
    (s : Store) : Except String Unit × Store :=
  match lookupA host_connection_id s.connections with
  | none => (.error noSuchConnectionMsg, s)
  | some connection =>
    let connections := modifyA host_connection_id
      (fun c => { c with projects := insertS project_id c.projects }) s.connections
    let project : Project :=
      { online := online, host_connection_id := host_connection_id,
        host := { replica_id := 0, user_id := connection.user_id,
                  last_activity := none, admin := connection.admin },
        guests := [], join_requests := [], active_replica_ids := [],
        worktrees := [], language_servers := [] }
    (.ok (), { s with connections := connections,
                      projects := upsert project_id project s.projects })

/-- Clearing each worktree's `entries` and `diagnostic_summaries`
(the shared loop of `update_project` going offline and of `leave_project`
unsharing). -/
def clearWorktreeData (worktrees : AList Nat Worktree) : AList Nat Worktree :=
  worktrees.map
    (fun pr => (pr.1, { pr.2 with diagnostic_summaries := [], entries := [] }))

/-- The worktree reconciliation loop of `Store::update_project`: rebuild the
worktree map from the metadata list, keeping existing records and creating
fresh ones, dropping worktrees absent from the list. -/
def reconcileWorktrees (worktrees : List WorktreeMetadata)
    (old : AList Nat Worktree) : AList Nat Worktree :=
  (worktrees.foldl
    (fun (acc : AList Nat Worktree × AList Nat Worktree) w =>
      match lookupA w.id acc.2 with
      | some old_worktree => (upsert w.id old_worktree acc.1, eraseA w.id acc.2)
      | none =>
        (upsert w.id
          { root_name := w.root_name, visible := w.visible, entries := [],
            diagnostic_summaries := [], scan_id := 0, is_complete := false } acc.1,
         acc.2))
    ([], old)).1

/-- The guest loop of `Store::update_project` and `Store::unregister_project`:
remove `project_id` from the `projects` set of every listed connection
(`if let Some(connection) = get_mut` makes a missing connection a no-op). -/
def removeProjectFromConnections (project_id : Nat) (cids : List Nat)
    (conns : AList Nat ConnectionState) : AList Nat ConnectionState :=
  cids.foldl
    (fun m g => modifyA g
      (fun c => { c with projects := removeS project_id c.projects }) m)
    conns

/-- `Store::update_project`. -/
def update_project (project_id : Nat) (worktrees : List WorktreeMetadata)
    (online : Bool) (connection_id : Nat) (s : Store) :
    Except String (Option UnsharedProject) × Store :=
  match lookupA project_id s.projects with
  | none => (.error noSuchProjectMsg, s)
  | some project =>
    if project.host_connection_id = connection_id then
      let project := { project with
        worktrees := reconcileWorktrees worktrees project.worktrees }
      if online ≠ project.online then
        let project := { project with online := online }
        if online then
          (.ok none, { s with projects := upsert project_id project s.projects })
        else
          let connections := removeProjectFromConnections project_id
            project.guest_connection_ids s.connections
          let project := { project with
            active_replica_ids := [],
            language_servers := [],
            worktrees := clearWorktreeData project.worktrees }
          let unshared : UnsharedProject := ⟨project.guests, project.join_requests⟩
          let project := { project with guests := [], join_requests := [] }
          (.ok (some unshared),
            { s with connections := connections,
                     projects := upsert project_id project s.projects })
      else (.ok none, { s with projects := upsert project_id project s.projects })
    else (.error noSuchProjectMsg, s)

/-- The requester loop of `Store::unregister_project`: for each listed
connection of a requesting user, drop `project_id` from `requested_projects`. -/
def removeRequestedFromConnections (project_id : Nat) (cids : List Nat)
    (conns : AList Nat ConnectionState) : AList Nat ConnectionState :=
  cids.foldl
    (fun m g => modifyA g
      (fun c => { c with requested_projects := removeS project_id c.requested_projects }) m)
    conns

/-- `Store::unregister_project`. -/
def unregister_project (project_id connection_id : Nat) (s : Store) :
    Except String Project × Store :=
  match lookupA project_id s.projects with
  | none => (.error noSuchProjectMsg, s)
  | some project =>
    if project.host_connection_id = connection_id then
      let projects := eraseA project_id s.projects
      let connections := modifyA connection_id
        (fun c => { c with projects := removeS project_id c.projects }) s.connections
      let connections := removeProjectFromConnections project_id
        project.guest_connection_ids connections
      let connections := project.join_requests.foldl
        (fun m pr =>
          match lookupA pr.1 s.connections_by_user_id with
          | none => m
          | some requester_user_connection_state =>
            removeRequestedFromConnections project_id
              requester_user_connection_state.connection_ids m)
        connections
      (.ok project, { s with projects := projects, connections := connections })
    else (.error noSuchProjectMsg, s)

/-- `Store::request_join_project`. -/
def request_join_project (requester_id project_id : Nat) (receipt : Receipt)
    (s : Store) : Except String Unit × Store :=
  match lookupA receipt.sender_id s.connections with
  | none => (.error noSuchConnectionMsg, s)
  | some _ =>
    match lookupA project_id s.projects with
    | none => (.error noSuchProjectMsg, s)
    | some project =>
      if project.online then
        let connections := modifyA receipt.sender_id
          (fun c => { c with requested_projects := insertS project_id c.requested_projects })
          s.connections
        let join_requests :=
          match lookupA requester_id project.join_requests with
          | some receipts => upsert requester_id (receipts ++ [receipt]) project.join_requests
          | none => project.join_requests ++ [(requester_id, [receipt])]
        (.ok (),
          { s with connections := connections,
                   projects := upsert project_id
                     { project with join_requests := join_requests } s.projects })
      else (.error noSuchProjectMsg, s)

/-- The receipt loop of `Store::deny_join_project_request`: clear each
sender's `requested_projects`; a sender missing from `connections` aborts via
`?`, keeping the mutations applied so far. -/
def clearRequestedLoop (project_id : Nat) :
    List Receipt → AList Nat ConnectionState → Bool × AList Nat ConnectionState
  | [], conns => (true, conns)
  | receipt :: rest, conns =>
    match lookupA receipt.sender_id conns with
    | none => (false, conns)
    | some _ =>
      clearRequestedLoop project_id rest
        (modifyA receipt.sender_id
          (fun c => { c with requested_projects := removeS project_id c.requested_projects })
          conns)

/-- `Store::deny_join_project_request`.  Mirrors the source exactly: the
requester's `join_requests` entry is removed *before* the receipt loop, so an
early `?` return leaves that removal (and any prior iterations) in place. -/
def deny_join_project_request (responder_connection_id requester_id project_id : Nat)
    (now : Int) (s : Store) : Option (List Receipt) × Store :=
  match lookupA project_id s.projects with
  | none => (none, s)
  | some project =>
    if responder_connection_id ≠ project.host_connection_id then (none, s)
    else
      match lookupA requester_id project.join_requests with
      | none => (none, s)
      | some receipts =>
        let project0 := { project with
          join_requests := eraseA requester_id project.join_requests }
        match clearRequestedLoop project_id receipts s.connections with
        | (false, conns) =>
          (none, { s with projects := upsert project_id project0 s.projects,
                          connections := conns })
        | (true, conns) =>
          let project1 := { project0 with
            host := { project0.host with last_activity := some now } }
          (some receipts,
            { s with projects := upsert project_id project1 s.projects,
                     connections := conns })

/-- The `while` loop of replica id allocation: starting at 1, bump until the
candidate is absent from `active`.  Fuel `active.length + 1` suffices (shown
in `firstFreeAux_spec`). -/
def firstFreeAux (active : List Nat) : Nat → Nat → Nat
  | 0, n => n
  | fuel + 1, n => if n ∈ active then firstFreeAux active fuel (n + 1) else n

def firstFreeReplica (active : List Nat) : Nat :=
  firstFreeAux active (active.length + 1) 1

/-- Loop state of the receipt loop of `Store::accept_join_project_request`. -/
structure AcceptLoopState where
  connections : AList Nat ConnectionState
  guests : AList Nat Collaborator
  active_replica_ids : List Nat
  pairs : List (Receipt × Nat)

/-- The receipt loop of `Store::accept_join_project_request`: promote each
receipt to a guest with a fresh replica id; a sender missing from
`connections` aborts via `?`, keeping the mutations applied so far. -/
def acceptLoop (project_id requester_id : Nat) (now : Int) :
    List Receipt → AcceptLoopState → Bool × AcceptLoopState
  | [], st => (true, st)
  | receipt :: rest, st =>
    match lookupA receipt.sender_id st.connections with
    | none => (false, st)
    | some requester_connection =>
      let conns := modifyA receipt.sender_id
        (fun c => { c with
          requested_projects := removeS project_id c.requested_projects,
          projects := insertS project_id c.projects })
        st.connections
      let replica_id := firstFreeReplica st.active_replica_ids
      let active := insertS replica_id st.active_replica_ids
      let guests := upsert receipt.sender_id
        { replica_id := replica_id, user_id := requester_id,
          last_activity := some now, admin := requester_connection.admin }
        st.guests
      acceptLoop project_id requester_id now rest
        ⟨conns, guests, active, st.pairs ++ [(receipt, replica_id)]⟩

/-- `Store::accept_join_project_request`. -/
def accept_join_project_request (responder_connection_id requester_id project_id : Nat)
    (now : Int) (s : Store) :
    Option (List (Receipt × Nat) × Project) × Store :=
  match lookupA project_id s.projects with
  | none => (none, s)
  | some project =>
    if responder_connection_id ≠ project.host_connection_id then (none, s)
    else
      match lookupA requester_id project.join_requests with
      | none => (none, s)
      | some receipts =>
        let project0 := { project with
          join_requests := eraseA requester_id project.join_requests }
        match acceptLoop project_id requester_id now receipts
            ⟨s.connections, project0.guests, project0.active_replica_ids, []⟩ with
        | (false, st) =>
          let project1 := { project0 with
            guests := st.guests, active_replica_ids := st.active_replica_ids }
          (none, { s with projects := upsert project_id project1 s.projects,
                          connections := st.connections })
        | (true, st) =>
          let project1 := { project0 with
            guests := st.guests, active_replica_ids := st.active_replica_ids,
            host := { project0.host with last_activity := some now } }
          (some (st.pairs, project1),
            { s with projects := upsert project_id project1 s.projects,
                     connections := st.connections })

/-- The guest-removal step of `Store::leave_project`: if the connection is a
guest, remove it and free its replica id; the flag is `remove_collaborator`. -/
def leaveProjectGuestStep (connection_id : Nat) (project : Project) :
    Bool × Project :=
  match lookupA connection_id project.guests with
  | some guest =>
    (true, { project with
      guests := eraseA connection_id project.guests,
      active_replica_ids := removeS guest.replica_id project.active_replica_ids })
  | none => (false, project)

/-- The join-request step of `Store::leave_project`: keep only receipts of the
user whose sender is another connection; if none remain, drop the entry and
report `cancel_request`. -/
def leaveProjectRequestStep (connection_id user_id : Nat) (project : Project) :
    Option Nat × Project :=
  match lookupA user_id project.join_requests with
  | some receipts =>
    if receipts.filter
        (fun receipt : Receipt => receipt.sender_id ≠ connection_id) = [] then
      (some user_id,
       { project with join_requests := eraseA user_id project.join_requests })
    else
      (none, { project with
        join_requests := upsert user_id
          (receipts.filter
            (fun receipt : Receipt => receipt.sender_id ≠ connection_id))
          project.join_requests })
  | none => (none, project)

/-- The bookkeeping clear of `Store::leave_project` when the project becomes
unshared: drop language servers and all worktree data. -/
def leaveProjectUnshareClear (project : Project) : Project :=
  { project with
    language_servers := [],
    worktrees := clearWorktreeData project.worktrees }

/-- The project transformation of `Store::leave_project`, yielding the
`LeftProject` record and the updated project. -/
def leaveProjectCore (connection_id user_id : Nat) (project : Project) :
    LeftProject × Project :=
  let step1 := leaveProjectGuestStep connection_id project
  let remove_collaborator := step1.1
  let project1 := step1.2
  let step2 := leaveProjectRequestStep connection_id user_id project1
  let cancel_request : Option Nat := step2.1
  let project2 := step2.2
  let connection_ids := project2.connection_ids
  let unshare : Bool := decide (connection_ids.length ≤ 1 ∧ project2.join_requests = [])
  let project3 := if unshare then leaveProjectUnshareClear project2 else project2
  ({ host_connection_id := project3.host_connection_id,
     host_user_id := project3.host.user_id,
     connection_ids := connection_ids,
     cancel_request := cancel_request,
     unshare := unshare,
     remove_collaborator := remove_collaborator },
   project3)

/-- `Store::leave_project`. -/
def leave_project (connection_id project_id : Nat) (s : Store) :
    Except String LeftProject × Store :=
  match user_id_for_connection connection_id s with
  | .error e => (.error e, s)
  | .ok user_id =>
    match lookupA project_id s.projects with
    | none => (.error noSuchProjectMsg, s)
    | some project =>
      let core := leaveProjectCore connection_id user_id project
      let connections := modifyA connection_id
        (fun c => { c with projects := removeS project_id c.projects }) s.connections
      (.ok core.1,
       { s with connections := connections,
                projects := upsert project_id core.2 s.projects })

/-- `Store::update_worktree`. -/
def update_worktree (connection_id project_id worktree_id : Nat)
    (worktree_root_name : String) (removed_entries : List Nat)
    (updated_entries : List Entry) (scan_id : Nat) (is_last_update : Bool)
    (s : Store) : Except String (List Nat × Bool) × Store :=
  match lookupA project_id s.projects with
  | none => (.error noSuchProjectMsg, s)
  | some project =>
    if project.host_connection_id = connection_id ∨
        containsKeyA connection_id project.guests then
      if !project.online then (.error projectOfflineMsg, s)
      else
        let connection_ids := project.connection_ids
        let worktree := (lookupA worktree_id project.worktrees).getD default
        let metadata_changed := worktree_root_name ≠ worktree.root_name
        let worktree := { worktree with root_name := worktree_root_name }
        let worktree := { worktree with
          entries := removed_entries.foldl (fun e entry_id => eraseA entry_id e)
            worktree.entries }
        let worktree := { worktree with
          entries := updated_entries.foldl
            (fun e (entry : Entry) => upsert entry.id entry e) worktree.entries }
        let worktree := { worktree with scan_id := scan_id, is_complete := is_last_update }
        let project' := { project with
          worktrees := upsert worktree_id worktree project.worktrees }
        (.ok (connection_ids, metadata_changed),
          { s with projects := upsert project_id project' s.projects })
    else (.error noSuchProjectMsg, s)

/-- One iteration of the project loop of `Store::remove_connection`: try
`unregister_project` (host case), else `leave_project` (guest case), else keep
the state (both failing is benign). -/
def removeConnectionProjectStep (connection_id : Nat)
    (acc : Store × RemovedConnectionState) (project_id : Nat) :
    Store × RemovedConnectionState :=
  match unregister_project project_id connection_id acc.1 with
  | (.ok project, s') =>
    (s', { acc.2 with hosted_projects := upsert project_id project acc.2.hosted_projects })
  | (.error _, _) =>
    match leave_project connection_id project_id acc.1 with
    | (.ok _, s') =>
      (s', { acc.2 with
        guest_project_ids := insertS project_id acc.2.guest_project_ids })
    | (.error _, _) => acc

/-- Steps 5–6 of `Store::remove_connection`: drop the connection from its
user's connection set (removing the user entry when it empties) and remove
the connection row.  The two `unwrap()` calls of the source are modelled as
error returns; under the store invariants they never fire. -/
def removeConnectionFinish (connection_id user_id : Nat)
    (result : RemovedConnectionState) (s3 : Store) :
    Except String RemovedConnectionState × Store :=
  match lookupA user_id s3.connections_by_user_id with
  | none => (.error unwrapUserStateMsg, s3)
  | some user_connection_state =>
    let remaining := removeS connection_id user_connection_state.connection_ids
    let by_user :=
      if remaining = [] then eraseA user_id s3.connections_by_user_id
      else modifyA user_id (fun u => { u with connection_ids := remaining })
        s3.connections_by_user_id
    let s4 := { s3 with connections_by_user_id := by_user }
    match lookupA connection_id s4.connections with
    | none => (.error unwrapConnectionMsg, s4)
    | some _ =>
      (.ok result, { s4 with connections := eraseA connection_id s4.connections })

/-- Step 2 of `Store::remove_connection`: the `mem::take` of the connection's
own `projects` and `channels` sets (they are cleared in place before the
unwind loops run). -/
def removeConnectionPrep (connection_id : Nat) (s : Store) : Store :=
  let conns1 := modifyA connection_id
    (fun c => { c with projects := [], channels := [] }) s.connections
  { s with connections := conns1 }

/-- `Store::remove_connection`. -/
def remove_connection (connection_id : Nat) (s : Store) :
    Except String RemovedConnectionState × Store :=
  match lookupA connection_id s.connections with
  | none => (.error noSuchConnectionMsg, s)
  | some connection =>
    let s1 := removeConnectionPrep connection_id s
    let s2 := connection.channels.foldl
      (fun st channel_id => leave_channel connection_id channel_id st) s1
    let folded := connection.projects.foldl
      (removeConnectionProjectStep connection_id)
      (s2, { user_id := connection.user_id, hosted_projects := [],
             guest_project_ids := [], contact_ids := [] })
    removeConnectionFinish connection_id connection.user_id folded.2 folded.1

/-! ## Invariants

`StoreWF` states that the Rust container types are modelled faithfully
(duplicate-free keys and sets); the remaining predicates mirror the
assertions of `Store::check_invariants`. -/

@[reducible] def NodupKeys {K V : Type} (l : AList K V) : Prop := (l.map (·.1)).Nodup

@[reducible] def StoreWF (s : Store) : Prop :=
  NodupKeys s.connections ∧ NodupKeys s.connections_by_user_id ∧
  NodupKeys s.rooms ∧ NodupKeys s.projects ∧ NodupKeys s.channels ∧
  (∀ pr ∈ s.connections, pr.2.projects.Nodup ∧ pr.2.requested_projects.Nodup ∧
    pr.2.channels.Nodup) ∧
  (∀ pr ∈ s.connections_by_user_id, pr.2.connection_ids.Nodup) ∧
  (∀ pr ∈ s.projects, NodupKeys pr.2.guests ∧ pr.2.active_replica_ids.Nodup ∧
    NodupKeys pr.2.worktrees ∧ NodupKeys pr.2.join_requests) ∧
  (∀ pr ∈ s.channels, pr.2.connection_ids.Nodup)

/-- Every project id in a connection's `projects` set names an existing
project in which that connection is host or guest. -/
@[reducible] def InvConnectionProjects (s : Store) : Prop :=
  ∀ pr ∈ s.connections, ∀ project_id ∈ pr.2.projects,
    ((lookupA project_id s.projects).any (fun project =>
      decide (project.host_connection_id = pr.1) ||
      containsKeyA pr.1 project.guests)) = true

/-- Within any worktree, entry paths are pairwise distinct. -/
@[reducible] def InvWorktreePaths (s : Store) : Prop :=
  ∀ pp ∈ s.projects, ∀ wt ∈ pp.2.worktrees,
    (wt.2.entries.map (fun e => e.2.path)).Nodup

/-- Every channel id in a connection's `channels` set names an existing
channel listing that connection. -/
@[reducible] def InvConnectionChannels (s : Store) : Prop :=
  ∀ pr ∈ s.connections, ∀ channel_id ∈ pr.2.channels,
    ((lookupA channel_id s.channels).any (fun channel =>
      decide (pr.1 ∈ channel.connection_ids))) = true

/-- Every connection appears in its user's connection set. -/
@[reducible] def InvConnectionUser (s : Store) : Prop :=
  ∀ pr ∈ s.connections,
    ((lookupA pr.2.user_id s.connections_by_user_id).any (fun ucs =>
      decide (pr.1 ∈ ucs.connection_ids))) = true

/-- Every id in a user's connection set names a connection of that user. -/
@[reducible] def InvUserConnections (s : Store) : Prop :=
  ∀ up ∈ s.connections_by_user_id, ∀ cid ∈ up.2.connection_ids,
    ((lookupA cid s.connections).any (fun conn =>
      decide (conn.user_id = up.1))) = true

/-- Host and guests of every project list the project in their `projects`. -/
@[reducible] def InvProjectConnections (s : Store) : Prop :=
  ∀ pp ∈ s.projects,
    ((lookupA pp.2.host_connection_id s.connections).any (fun conn =>
      decide (pp.1 ∈ conn.projects))) = true ∧
    ∀ g ∈ keysA pp.2.guests,
      ((lookupA g s.connections).any (fun conn =>
        decide (pp.1 ∈ conn.projects))) = true

/-- `active_replica_ids` is exactly the set of guest replica ids. -/
@[reducible] def InvReplicaIds (s : Store) : Prop :=
  ∀ pp ∈ s.projects,
    pp.2.active_replica_ids.length = pp.2.guests.length ∧
    (∀ r ∈ pp.2.active_replica_ids, ∃ g ∈ pp.2.guests, g.2.replica_id = r) ∧
    (∀ g ∈ pp.2.guests, g.2.replica_id ∈ pp.2.active_replica_ids)

/-- Every member of a channel is a connection subscribing to it. -/
@[reducible] def InvChannelConnections (s : Store) : Prop :=
  ∀ cp ∈ s.channels, ∀ cid ∈ cp.2.connection_ids,
    ((lookupA cid s.connections).any (fun conn =>
      decide (cp.1 ∈ conn.channels))) = true

@[reducible] def StoreInv (s : Store) : Prop :=
  StoreWF s ∧ InvConnectionProjects s ∧ InvWorktreePaths s ∧
  InvConnectionChannels s ∧ InvConnectionUser s ∧ InvUserConnections s ∧
  InvProjectConnections s ∧ InvReplicaIds s ∧ InvChannelConnections s

/-! ## Predicates used by the claim statements -/

/-- Absence of `connection_id` from `connections`, from every user's
connection set, from every channel's member set, and from every project's
host and guests. -/
def NoDanglingConnection (connection_id : Nat) (s : Store) : Prop :=
  lookupA connection_id s.connections = none ∧
  (∀ u ucs, lookupA u s.connections_by_user_id = some ucs →
    connection_id ∉ ucs.connection_ids) ∧
  (∀ ch channel, lookupA ch s.channels = some channel →
    connection_id ∉ channel.connection_ids) ∧
  (∀ p project, lookupA p s.projects = some project →
    project.host_connection_id ≠ connection_id ∧
    lookupA connection_id project.guests = none)

/-- The full reference check of the spec sentence behind C1: additionally
counts join-request receipts naming `connection_id` as sender and room
participants with peer id `connection_id`. -/
def refersToConnection (connection_id : Nat) (s : Store) : Bool :=
  containsKeyA connection_id s.connections ||
  s.connections_by_user_id.any (fun up =>
    decide (connection_id ∈ up.2.connection_ids)) ||
  s.channels.any (fun cp => decide (connection_id ∈ cp.2.connection_ids)) ||
  s.projects.any (fun pp =>
    decide (pp.2.host_connection_id = connection_id) ||
    containsKeyA connection_id pp.2.guests ||
    pp.2.join_requests.any (fun jr =>
      jr.2.any (fun r => decide (r.sender_id = connection_id)))) ||
  s.rooms.any (fun rp =>
    rp.2.participants.any (fun p => decide (p.peer_id = connection_id)))

/-- `r` is the smallest positive integer absent from `active`. -/
def IsLeastFreeReplica (r : Nat) (active : List Nat) : Prop :=
  1 ≤ r ∧ r ∉ active ∧ ∀ m, 1 ≤ m → m ∉ active → r ≤ m

/-- The record in `updated` that wins for id `k` (the last one, since each
`insert` overwrites). -/
def lastUpdatedEntry (k : Nat) (updated : List Entry) : Option Entry :=
  updated.reverse.find? (fun e => decide (e.id = k))

/-- The host connection of project entry `pp` exists and is not an admin. -/
def hostNonAdmin (s : Store) (pp : Nat × Project) : Bool :=
  match lookupA pp.2.host_connection_id s.connections with
  | some connection => !connection.admin
  | none => false

/-! ## Concrete stores (built through the operations themselves) -/

instance exceptDecEq {ε α : Type} [DecidableEq ε] [DecidableEq α] :
    DecidableEq (Except ε α) := fun x y =>
  match x, y with
  | .error e, .error e' =>
    if h : e = e' then isTrue (by rw [h])
    else isFalse (by intro hh; cases hh; exact h rfl)
  | .error _, .ok _ => isFalse (by intro hh; cases hh)
  | .ok _, .error _ => isFalse (by intro hh; cases hh)
  | .ok a, .ok a' =>
    if h : a = a' then isTrue (by rw [h])
    else isFalse (by intro hh; cases hh; exact h rfl)

def emptyStore : Store := ⟨[], [], 0, [], [], []⟩

instance : Inhabited Project :=
  ⟨{ online := false, host_connection_id := 0,
     host := { replica_id := 0, user_id := 0, last_activity := none, admin := false },
     guests := [], join_requests := [], active_replica_ids := [], worktrees := [],
     language_servers := [] }⟩

/-- Connection 2 (user 20) hosts online project 100; connection 3 (user 30)
has requested to join it and has created room 0 (so it is the sole
participant with peer id 3). -/
def sC1 : Store :=
  (create_room 3
    ((request_join_project 30 100 ⟨3, 7⟩
      ((register_project 2 100 true
        (add_connection 3 30 false
          (add_connection 2 20 false emptyStore))).2)).2)).2

/-- Connection 1 (user 10) hosts online project 100; user 20 requested to
join from connection 2, which then disconnected — leaving a join-request
receipt whose sender is no longer in `connections`. -/
def sC2 : Store :=
  (remove_connection 2
    ((request_join_project 20 100 ⟨2, 5⟩
      ((register_project 1 100 true
        (add_connection 2 20 false
          (add_connection 1 10 false emptyStore))).2)).2)).2

/-- Connection 1 (user 10) hosts online project 100; user 20 has an
outstanding join request from connection 2. -/
def sC3 : Store :=
  (request_join_project 20 100 ⟨2, 5⟩
    ((register_project 1 100 true
      (add_connection 2 20 false
        (add_connection 1 10 false emptyStore))).2)).2

/-- `sC3` after the host accepted user 20's request: connection 2 is a guest
with replica id 1 and no requests are pending. -/
def sC3w : Store := (accept_join_project_request 1 20 100 0 sC3).2

def projC3w : Project := (lookupA 100 sC3w.projects).getD default

def projC3 : Project := (lookupA 100 sC3.projects).getD default

/-- The receipt/replica pairs returned by accepting user 20's request in
`sC3`. -/
def pairsC4 : List (Receipt × Nat) := [({ sender_id := 2, message_id := 5 }, 1)]

instance : Inhabited Collaborator :=
  ⟨{ replica_id := 0, user_id := 0, last_activity := none, admin := false }⟩

instance : Inhabited ConnectionState :=
  ⟨{ user_id := 0, admin := false, projects := [], requested_projects := [],
     channels := [] }⟩

/-- Host connection 1 (user 10) with guests at connections 2, 3, 4 (users
20, 30, 40) holding replica ids 1, 2, 3. -/
def sC4a : Store :=
  let s0 := add_connection 1 10 false emptyStore
  let s1 := add_connection 2 20 false s0
  let s2 := add_connection 3 30 false s1
  let s3 := add_connection 4 40 false s2
  let s4 := (register_project 1 100 true s3).2
  let s5 := (request_join_project 20 100 ⟨2, 1⟩ s4).2
  let s6 := (accept_join_project_request 1 20 100 0 s5).2
  let s7 := (request_join_project 30 100 ⟨3, 2⟩ s6).2
  let s8 := (accept_join_project_request 1 30 100 0 s7).2
  let s9 := (request_join_project 40 100 ⟨4, 3⟩ s8).2
  (accept_join_project_request 1 40 100 0 s9).2

def projC4a : Project := (lookupA 100 sC4a.projects).getD default

def connC4a3 : ConnectionState := (lookupA 3 sC4a.connections).getD default

def guestC4 : Collaborator := (lookupA 3 projC4a.guests).getD default

def connC4r : ConnectionState :=
  { user_id := 10, admin := false, projects := [], requested_projects := [],
    channels := [] }

/-- `sC4a` after guest 3 (replica 2) left. -/
def sC4b : Store := (leave_project 3 100 sC4a).2

/-- `sC4b` after guest 4 (replica 3) left — the most recently freed replica
id is 3 while 2 is also free — and user 50 (connection 5) then requested to
join. -/
def sC4c : Store :=
  (request_join_project 50 100 ⟨5, 9⟩
    (add_connection 5 50 false (leave_project 4 100 sC4b).2)).2

/-- A store whose `connections_by_user_id` holds an entry with an *empty*
connection set (no API sequence creates one; it witnesses that C5 as stated
quantifies over more stores than the round-trip law can support). -/
def sC5 : Store := ⟨[], [(10, ⟨[], none⟩)], 0, [], [], []⟩

/-- An ordinary store for the C5 witness: one connection of user 70. -/
def sC5w : Store := add_connection 7 70 false emptyStore

/-- Connection 1 (user 10) created room 0. -/
def sC6 : Store := (create_room 1 (add_connection 1 10 false emptyStore)).2

/-- `sC6` plus a connection for user 20 (the invitee). -/
def sC6w : Store := add_connection 2 20 false sC6

/-- Connection 1 (user 10) hosts online project 100. -/
def sC7 : Store :=
  (register_project 1 100 true (add_connection 1 10 false emptyStore)).2

def projC7 : Project := (lookupA 100 sC7.projects).getD default

/-- Two users, one connection each; used to re-add connection 1 under a
different user for C9. -/
def sC9 : Store :=
  add_connection 2 20 false (add_connection 1 10 false emptyStore)

/-- Users 10 and 20 each with a connection; connection 1 created room 0 and
called user 20, whose room state is therefore `Calling{0}`. -/
def sC10 : Store :=
  (call 0 1 20
    ((create_room 1
      (add_connection 2 20 false
        (add_connection 1 10 false emptyStore))).2)).2

/-! ## Lemmas about the map and set primitives -/

section PrimitiveLemmas

variable {K V : Type} [DecidableEq K]

theorem lookupA_upsert_self (k : K) (v : V) (l : AList K V) :
    lookupA k (upsert k v l) = some v := by
  induction l with
  | nil => simp [upsert, lookupA]
  | cons hd t ih =>
    obtain ⟨k', v'⟩ := hd
    by_cases h : k' = k
    · subst h; simp [upsert, lookupA]
    · simp [upsert, h, lookupA, ih]

theorem lookupA_upsert_ne (q k : K) (v : V) (l : AList K V) (h : q ≠ k) :
    lookupA q (upsert k v l) = lookupA q l := by
  induction l with
  | nil => simp [upsert, lookupA, Ne.symm h]
  | cons hd t ih =>
    obtain ⟨k', v'⟩ := hd
    by_cases hk : k' = k
    · subst hk; simp [upsert, lookupA, Ne.symm h]
    · by_cases hq : k' = q
      · subst hq; simp [upsert, hk, lookupA]
      · simp [upsert, hk, lookupA, hq, ih]

theorem lookupA_modifyA_self (k : K) (f : V → V) (l : AList K V) :
    lookupA k (modifyA k f l) = (lookupA k l).map f := by
  induction l with
  | nil => simp [modifyA, lookupA]
  | cons hd t ih =>
    obtain ⟨k', v'⟩ := hd
    by_cases h : k' = k
    · subst h; simp [modifyA, lookupA]
    · simp [modifyA, h, lookupA, ih]

theorem lookupA_modifyA_ne (q k : K) (f : V → V) (l : AList K V) (h : q ≠ k) :
    lookupA q (modifyA k f l) = lookupA q l := by
  induction l with
  | nil => simp [modifyA]
  | cons hd t ih =>
    obtain ⟨k', v'⟩ := hd
    by_cases hk : k' = k
    · subst hk; simp [modifyA, lookupA, Ne.symm h]
    · by_cases hq : k' = q
      · subst hq; simp [modifyA, hk, lookupA]
      · simp [modifyA, hk, lookupA, hq, ih]

theorem lookupA_eraseA_self (k : K) (l : AList K V) :
    lookupA k (eraseA k l) = none := by
  induction l with
  | nil => simp [eraseA, lookupA]
  | cons hd t ih =>
    obtain ⟨k', v'⟩ := hd
    by_cases h : k' = k
    · subst h; simpa [eraseA, lookupA] using ih
    · simpa [eraseA, lookupA, h] using ih

theorem lookupA_eraseA_ne (q k : K) (l : AList K V) (h : q ≠ k) :
    lookupA q (eraseA k l) = lookupA q l := by
  induction l with
  | nil => simp [eraseA]
  | cons hd t ih =>
    obtain ⟨k', v'⟩ := hd
    by_cases hk : k' = k
    · subst hk; simpa [eraseA, lookupA, Ne.symm h] using ih
    · by_cases hq : k' = q
      · subst hq; simp [eraseA, lookupA, hk]
      · simpa [eraseA, lookupA, hk, hq] using ih

theorem isSome_lookupA_modifyA (q k : K) (f : V → V) (l : AList K V) :
    (lookupA q (modifyA k f l)).isSome = (lookupA q l).isSome := by
  by_cases h : q = k
  · subst h; rw [lookupA_modifyA_self]; cases lookupA q l <;> simp
  · rw [lookupA_modifyA_ne q k f l h]

theorem lookupA_mem {k : K} {v : V} {l : AList K V}
    (h : lookupA k l = some v) : (k, v) ∈ l := by
  induction l with
  | nil => simp [lookupA] at h
  | cons hd t ih =>
    obtain ⟨k', v'⟩ := hd
    by_cases hk : k' = k
    · subst hk
      simp [lookupA] at h
      subst h; exact List.mem_cons_self _ _
    · simp [lookupA, hk] at h
      exact List.mem_cons_of_mem _ (ih h)

theorem upsert_of_lookup_none {k : K} {l : AList K V} (v : V)
    (h : lookupA k l = none) : upsert k v l = l ++ [(k, v)] := by
  induction l with
  | nil => simp [upsert]
  | cons hd t ih =>
    obtain ⟨k', v'⟩ := hd
    by_cases hk : k' = k
    · subst hk; simp [lookupA] at h
    · simp [lookupA, hk] at h
      simp [upsert, hk, ih h]

theorem eraseA_of_lookup_none {k : K} {l : AList K V}
    (h : lookupA k l = none) : eraseA k l = l := by
  induction l with
  | nil => simp [eraseA]
  | cons hd t ih =>
    obtain ⟨k', v'⟩ := hd
    by_cases hk : k' = k
    · subst hk; simp [lookupA] at h
    · simp [lookupA, hk] at h
      simp [eraseA, hk]
      simpa [eraseA] using ih h

theorem modifyA_of_lookup_none {k : K} {l : AList K V} (f : V → V)
    (h : lookupA k l = none) : modifyA k f l = l := by
  induction l with
  | nil => simp [modifyA]
  | cons hd t ih =>
    obtain ⟨k', v'⟩ := hd
    by_cases hk : k' = k
    · subst hk; simp [lookupA] at h
    · simp [lookupA, hk] at h
      simp [modifyA, hk, ih h]

theorem modifyA_fix {k : K} {l : AList K V} {f : V → V}
    (h : ∀ v, lookupA k l = some v → f v = v) : modifyA k f l = l := by
  induction l with
  | nil => simp [modifyA]
  | cons hd t ih =>
    obtain ⟨k', v'⟩ := hd
    by_cases hk : k' = k
    · subst hk
      have := h v' (by simp [lookupA])
      simp [modifyA, this]
    · simp [lookupA, hk] at h
      simp [modifyA, hk, ih h]

theorem modifyA_modifyA (k : K) (f g : V → V) (l : AList K V) :
    modifyA k f (modifyA k g l) = modifyA k (fun v => f (g v)) l := by
  induction l with
  | nil => simp [modifyA]
  | cons hd t ih =>
    obtain ⟨k', v'⟩ := hd
    by_cases hk : k' = k
    · subst hk; simp [modifyA]
    · simp [modifyA, hk, ih]

theorem mem_removeS {y x : Nat} {l : List Nat} :
    y ∈ removeS x l ↔ y ∈ l ∧ y ≠ x := by
  simp [removeS]

theorem not_mem_removeS_self (x : Nat) (l : List Nat) : x ∉ removeS x l := by
  simp [mem_removeS]

theorem mem_insertS {y x : Nat} {l : List Nat} :
    y ∈ insertS x l ↔ y ∈ l ∨ y = x := by
  unfold insertS
  split
  · constructor
    · exact fun h => Or.inl h
    · rintro (h | rfl)
      · exact h
      · assumption
  · simp

theorem removeS_of_not_mem {x : Nat} {l : List Nat} (h : x ∉ l) :
    removeS x l = l := by
  unfold removeS
  refine List.filter_eq_self.mpr ?_
  intro y hy
  simp only [decide_eq_true_eq]
  exact fun e => h (e ▸ hy)

theorem removeS_insertS_of_not_mem {x : Nat} {l : List Nat} (h : x ∉ l) :
    removeS x (insertS x l) = l := by
  have h2 : removeS x l = l := removeS_of_not_mem h
  unfold insertS
  rw [if_neg h]
  unfold removeS at h2 ⊢
  rw [List.filter_append, h2]
  simp

theorem removeS_subset {x : Nat} {l : List Nat} : removeS x l ⊆ l := by
  intro y hy
  exact (mem_removeS.mp hy).1

theorem insertS_of_not_mem {x : Nat} {l : List Nat} (h : x ∉ l) :
    insertS x l = l ++ [x] := by
  unfold insertS
  rw [if_neg h]

end PrimitiveLemmas

/-! ## Replica id allocation -/

theorem countP_lt_of_mem {active : List Nat} {n : Nat} (h : n ∈ active) :
    active.countP (fun a => decide (n + 1 ≤ a)) <
      active.countP (fun a => decide (n ≤ a)) := by
  induction active with
  | nil => simp at h
  | cons hd t ih =>
    have mono : t.countP (fun a => decide (n + 1 ≤ a)) ≤
        t.countP (fun a => decide (n ≤ a)) :=
      List.countP_mono_left (by
        intro x _ hx
        simp only [decide_eq_true_eq] at hx ⊢
        omega)
    rw [List.countP_cons, List.countP_cons]
    simp only [decide_eq_true_eq]
    rcases List.mem_cons.mp h with rfl | hmem
    · rw [if_pos (le_refl n), if_neg (by omega : ¬(n + 1 ≤ n))]
      omega
    · have hlt := ih hmem
      by_cases hc : n + 1 ≤ hd
      · rw [if_pos hc, if_pos (by omega : n ≤ hd)]
        omega
      · rw [if_neg hc]
        by_cases hc2 : n ≤ hd
        · rw [if_pos hc2]; omega
        · rw [if_neg hc2]; omega

theorem firstFreeAux_spec (active : List Nat) :
    ∀ (fuel n : Nat), active.countP (fun a => decide (n ≤ a)) < fuel →
      firstFreeAux active fuel n ∉ active ∧
      n ≤ firstFreeAux active fuel n ∧
      ∀ m, n ≤ m → m ∉ active → firstFreeAux active fuel n ≤ m := by
  intro fuel
  induction fuel with
  | zero => intro n h; omega
  | succ fuel ih =>
    intro n h
    by_cases hn : n ∈ active
    · have hcount : active.countP (fun a => decide (n + 1 ≤ a)) < fuel := by
        have := countP_lt_of_mem hn
        omega
      obtain ⟨h1, h2, h3⟩ := ih (n + 1) hcount
      refine ⟨?_, ?_, ?_⟩
      · simpa [firstFreeAux, hn] using h1
      · have : n + 1 ≤ firstFreeAux active fuel (n + 1) := h2
        simp only [firstFreeAux, hn, if_true]
        omega
      · intro m hm hmabs
        have hm1 : n + 1 ≤ m := by
          rcases Nat.eq_or_lt_of_le hm with rfl | hlt
          · exact absurd hn hmabs
          · omega
        simpa [firstFreeAux, hn] using h3 m hm1 hmabs
    · refine ⟨by simp [firstFreeAux, hn], by simp [firstFreeAux, hn], ?_⟩
      intro m hm _
      simpa [firstFreeAux, hn] using hm

theorem firstFreeReplica_isLeastFree (active : List Nat) :
    IsLeastFreeReplica (firstFreeReplica active) active := by
  have hcount : active.countP (fun a => decide (1 ≤ a)) < active.length + 1 := by
    have := List.countP_le_length (l := active) (p := fun a => decide (1 ≤ a))
    omega
  obtain ⟨h1, h2, h3⟩ := firstFreeAux_spec active (active.length + 1) 1 hcount
  exact ⟨h2, h1, h3⟩

/-- The receipt loop of `accept_join_project_request` appends freshly
assigned pairs, extends the active set by exactly the assigned ids, and each
assignment is the least positive id free at its moment. -/
theorem acceptLoop_spec (project_id requester_id : Nat) (now : Int) :
    ∀ (receipts : List Receipt) (st : AcceptLoopState),
    ∃ newPairs : List (Receipt × Nat),
      (acceptLoop project_id requester_id now receipts st).2.pairs
        = st.pairs ++ newPairs ∧
      (acceptLoop project_id requester_id now receipts st).2.active_replica_ids
        = st.active_replica_ids ++ newPairs.map (·.2) ∧
      ∀ k (hk : k < newPairs.length),
        IsLeastFreeReplica (newPairs.get ⟨k, hk⟩).2
          (st.active_replica_ids ++ (newPairs.take k).map (·.2)) := by
  intro receipts
  induction receipts with
  | nil =>
    intro st
    exact ⟨[], by simp [acceptLoop], by simp [acceptLoop], by intro k hk; simp at hk⟩
  | cons receipt rest ih =>
    intro st
    by_cases hs : ∃ c, lookupA receipt.sender_id st.connections = some c
    · obtain ⟨c, hc⟩ := hs
      have hfree := firstFreeReplica_isLeastFree st.active_replica_ids
      set r := firstFreeReplica st.active_replica_ids with hr
      have hins : insertS r st.active_replica_ids = st.active_replica_ids ++ [r] :=
        insertS_of_not_mem hfree.2.1
      obtain ⟨newPairs', hp, ha, hk⟩ := ih
        ⟨modifyA receipt.sender_id
          (fun cc => { cc with
            requested_projects := removeS project_id cc.requested_projects,
            projects := insertS project_id cc.projects }) st.connections,
         upsert receipt.sender_id
          { replica_id := r, user_id := requester_id,
            last_activity := some now, admin := c.admin } st.guests,
         insertS r st.active_replica_ids,
         st.pairs ++ [(receipt, r)]⟩
      refine ⟨(receipt, r) :: newPairs', ?_, ?_, ?_⟩
      · rw [acceptLoop, hc]
        simp only at hp
        rw [hp]
        simp
      · rw [acceptLoop, hc]
        simp only at ha
        rw [ha, hins]
        simp
      · intro k hklt
        match k with
        | 0 =>
          simpa using hfree
        | Nat.succ k' =>
          have hklt' : k' < newPairs'.length := by
            simpa using hklt
          have := hk k' hklt'
          simp only at this
          rw [hins] at this
          simpa [List.append_assoc] using this
    · have hc : lookupA receipt.sender_id st.connections = none := by
        cases hcc : lookupA receipt.sender_id st.connections with
        | none => rfl
        | some c => exact absurd ⟨c, hcc⟩ hs
      exact ⟨[], by rw [acceptLoop, hc]; simp, by rw [acceptLoop, hc]; simp,
        by intro k hklt; simp at hklt⟩

/-! ## Effect lemmas for the connection-table folds -/

theorem removeProjectFromConnections_nil (project_id : Nat)
    (conns : AList Nat ConnectionState) :
    removeProjectFromConnections project_id [] conns = conns := rfl

theorem removeProjectFromConnections_cons (project_id hd : Nat) (t : List Nat)
    (conns : AList Nat ConnectionState) :
    removeProjectFromConnections project_id (hd :: t) conns =
      removeProjectFromConnections project_id t
        (modifyA hd (fun c => { c with projects := removeS project_id c.projects })
          conns) := rfl

theorem isSome_removeProjectFromConnections (project_id : Nat) (cids : List Nat) :
    ∀ (conns : AList Nat ConnectionState) (k : Nat),
      (lookupA k (removeProjectFromConnections project_id cids conns)).isSome
        = (lookupA k conns).isSome := by
  induction cids with
  | nil => intro conns k; rfl
  | cons hd t ih =>
    intro conns k
    rw [removeProjectFromConnections_cons, ih, isSome_lookupA_modifyA]

theorem lookupA_removeProjectFromConnections_not_mem {project_id g : Nat}
    {cids : List Nat} (hg : g ∉ cids) :
    ∀ conns, lookupA g (removeProjectFromConnections project_id cids conns)
      = lookupA g conns := by
  induction cids with
  | nil => intro conns; rfl
  | cons hd t ih =>
    intro conns
    have hne : g ≠ hd := fun e => hg (e ▸ List.mem_cons_self hd t)
    have ht : g ∉ t := fun e => hg (List.mem_cons_of_mem hd e)
    rw [removeProjectFromConnections_cons, ih ht, lookupA_modifyA_ne g hd _ _ hne]

theorem lookupA_removeProjectFromConnections_mem {project_id : Nat}
    {cids : List Nat} :
    ∀ (conns : AList Nat ConnectionState), ∀ g ∈ cids, ∀ conn,
      lookupA g (removeProjectFromConnections project_id cids conns) = some conn →
      project_id ∉ conn.projects := by
  induction cids with
  | nil => intro conns g hg; simp at hg
  | cons hd t ih =>
    intro conns g hg conn hconn
    rw [removeProjectFromConnections_cons] at hconn
    by_cases hgt : g ∈ t
    · exact ih _ g hgt conn hconn
    · have hghd : g = hd := by
        rcases List.mem_cons.mp hg with h | h
        · exact h
        · exact absurd h hgt
      subst hghd
      rw [lookupA_removeProjectFromConnections_not_mem hgt,
        lookupA_modifyA_self] at hconn
      cases ho : lookupA g conns with
      | none => rw [ho] at hconn; simp at hconn
      | some c0 =>
        rw [ho] at hconn
        simp only [Option.map_some'] at hconn
        cases hconn
        exact not_mem_removeS_self _ _

theorem removeRequestedFromConnections_nil (project_id : Nat)
    (conns : AList Nat ConnectionState) :
    removeRequestedFromConnections project_id [] conns = conns := rfl

theorem removeRequestedFromConnections_cons (project_id hd : Nat) (t : List Nat)
    (conns : AList Nat ConnectionState) :
    removeRequestedFromConnections project_id (hd :: t) conns =
      removeRequestedFromConnections project_id t
        (modifyA hd
          (fun c => { c with requested_projects := removeS project_id c.requested_projects })
          conns) := rfl

theorem isSome_removeRequestedFromConnections (project_id : Nat) (cids : List Nat) :
    ∀ (conns : AList Nat ConnectionState) (k : Nat),
      (lookupA k (removeRequestedFromConnections project_id cids conns)).isSome
        = (lookupA k conns).isSome := by
  induction cids with
  | nil => intro conns k; rfl
  | cons hd t ih =>
    intro conns k
    rw [removeRequestedFromConnections_cons, ih, isSome_lookupA_modifyA]

theorem isSome_requesterFold (project_id : Nat)
    (users : AList Nat UserConnectionState) (l : AList Nat (List Receipt)) :
    ∀ (conns : AList Nat ConnectionState) (k : Nat),
      (lookupA k (l.foldl
        (fun m pr =>
          match lookupA pr.1 users with
          | none => m
          | some requester_user_connection_state =>
            removeRequestedFromConnections project_id
              requester_user_connection_state.connection_ids m)
        conns)).isSome = (lookupA k conns).isSome := by
  induction l with
  | nil => intro conns k; rfl
  | cons hd t ih =>
    intro conns k
    rw [List.foldl_cons, ih]
    cases lookupA hd.1 users with
    | none => rfl
    | some ucs => rw [isSome_removeRequestedFromConnections]

/-! ## Equation lemmas for the project operations -/

theorem user_id_for_connection_some {connection_id : Nat} {s : Store}
    {conn : ConnectionState} (h : lookupA connection_id s.connections = some conn) :
    user_id_for_connection connection_id s = .ok conn.user_id := by
  unfold user_id_for_connection
  rw [h]

theorem unregister_project_eq_ok {project_id connection_id : Nat} {s : Store}
    {project : Project} (hp : lookupA project_id s.projects = some project)
    (hh : project.host_connection_id = connection_id) :
    unregister_project project_id connection_id s =
      (.ok project,
       { s with
         projects := eraseA project_id s.projects,
         connections := project.join_requests.foldl
           (fun m pr =>
             match lookupA pr.1 s.connections_by_user_id with
             | none => m
             | some requester_user_connection_state =>
               removeRequestedFromConnections project_id
                 requester_user_connection_state.connection_ids m)
           (removeProjectFromConnections project_id project.guest_connection_ids
             (modifyA connection_id
               (fun c => { c with projects := removeS project_id c.projects })
               s.connections)) }) := by
  unfold unregister_project
  rw [hp]
  simp only [hh, if_true]

theorem unregister_project_eq_err_noproj {project_id connection_id : Nat} {s : Store}
    (hp : lookupA project_id s.projects = none) :
    unregister_project project_id connection_id s = (.error noSuchProjectMsg, s) := by
  unfold unregister_project
  rw [hp]

theorem unregister_project_eq_err_nothost {project_id connection_id : Nat} {s : Store}
    {project : Project} (hp : lookupA project_id s.projects = some project)
    (hh : project.host_connection_id ≠ connection_id) :
    unregister_project project_id connection_id s = (.error noSuchProjectMsg, s) := by
  unfold unregister_project
  rw [hp]
  simp only [hh, if_false, ite_false]

theorem leave_project_eq_ok {connection_id project_id : Nat} {s : Store}
    {conn : ConnectionState} {project : Project}
    (hc : lookupA connection_id s.connections = some conn)
    (hp : lookupA project_id s.projects = some project) :
    leave_project connection_id project_id s =
      (.ok (leaveProjectCore connection_id conn.user_id project).1,
       { s with
         connections := modifyA connection_id
           (fun c => { c with projects := removeS project_id c.projects })
           s.connections,
         projects := upsert project_id
           (leaveProjectCore connection_id conn.user_id project).2 s.projects }) := by
  unfold leave_project
  rw [user_id_for_connection_some hc, hp]

theorem leave_project_eq_err_noconn {connection_id project_id : Nat} {s : Store}
    (hc : lookupA connection_id s.connections = none) :
    leave_project connection_id project_id s = (.error unknownConnectionMsg, s) := by
  unfold leave_project user_id_for_connection
  rw [hc]

theorem leave_project_eq_err_noproj {connection_id project_id : Nat} {s : Store}
    {conn : ConnectionState} (hc : lookupA connection_id s.connections = some conn)
    (hp : lookupA project_id s.projects = none) :
    leave_project connection_id project_id s = (.error noSuchProjectMsg, s) := by
  unfold leave_project
  rw [user_id_for_connection_some hc, hp]

/-! ## Preservation lemmas for `leaveProjectCore` -/

theorem leaveProjectGuestStep_fields (connection_id : Nat) (project : Project) :
    (leaveProjectGuestStep connection_id project).2.host_connection_id
      = project.host_connection_id ∧
    (leaveProjectGuestStep connection_id project).2.host = project.host ∧
    lookupA connection_id (leaveProjectGuestStep connection_id project).2.guests
      = none := by
  unfold leaveProjectGuestStep
  cases hg : lookupA connection_id project.guests with
  | none => exact ⟨rfl, rfl, hg⟩
  | some guest => exact ⟨rfl, rfl, lookupA_eraseA_self _ _⟩

theorem leaveProjectRequestStep_fields (connection_id user_id : Nat)
    (project : Project) :
    (leaveProjectRequestStep connection_id user_id project).2.host_connection_id
      = project.host_connection_id ∧
    (leaveProjectRequestStep connection_id user_id project).2.host = project.host ∧
    (leaveProjectRequestStep connection_id user_id project).2.guests
      = project.guests ∧
    (leaveProjectRequestStep connection_id user_id project).2.active_replica_ids
      = project.active_replica_ids := by
  unfold leaveProjectRequestStep
  split
  · split
    · exact ⟨rfl, rfl, rfl, rfl⟩
    · exact ⟨rfl, rfl, rfl, rfl⟩
  · exact ⟨rfl, rfl, rfl, rfl⟩

theorem leaveProjectCore_fields (connection_id user_id : Nat) (project : Project) :
    (leaveProjectCore connection_id user_id project).2.host_connection_id
      = project.host_connection_id ∧
    (leaveProjectCore connection_id user_id project).2.host = project.host ∧
    lookupA connection_id (leaveProjectCore connection_id user_id project).2.guests
      = none ∧
    (leaveProjectCore connection_id user_id project).2.active_replica_ids
      = (leaveProjectGuestStep connection_id project).2.active_replica_ids := by
  obtain ⟨g1, g2, g3⟩ := leaveProjectGuestStep_fields connection_id project
  obtain ⟨r1, r2, r3, r4⟩ := leaveProjectRequestStep_fields connection_id user_id
    (leaveProjectGuestStep connection_id project).2
  have hif : ∀ (b : Bool) (p2 : Project),
      (if b = true then leaveProjectUnshareClear p2 else p2).host_connection_id
        = p2.host_connection_id ∧
      (if b = true then leaveProjectUnshareClear p2 else p2).host = p2.host ∧
      (if b = true then leaveProjectUnshareClear p2 else p2).guests = p2.guests ∧
      (if b = true then leaveProjectUnshareClear p2 else p2).active_replica_ids
        = p2.active_replica_ids := by
    intro b p2
    cases b
    · exact ⟨rfl, rfl, rfl, rfl⟩
    · exact ⟨rfl, rfl, rfl, rfl⟩
  unfold leaveProjectCore
  obtain ⟨i1, i2, i3, i4⟩ := hif
    (decide ((leaveProjectRequestStep connection_id user_id
        (leaveProjectGuestStep connection_id project).2).2.connection_ids.length ≤ 1 ∧
      (leaveProjectRequestStep connection_id user_id
        (leaveProjectGuestStep connection_id project).2).2.join_requests = []))
    (leaveProjectRequestStep connection_id user_id
      (leaveProjectGuestStep connection_id project).2).2
  simp only [leaveProjectCore]
  refine ⟨?_, ?_, ?_, ?_⟩
  · rw [i1, r1, g1]
  · rw [i2, r2, g2]
  · rw [i3, r3]; exact g3
  · rw [i4, r4]

/-! ## Effect lemmas for `leave_channel` and the channel loop -/

theorem option_any_eq_true_iff {α : Type} {p : α → Bool} {o : Option α} :
    o.any p = true ↔ ∃ x, o = some x ∧ p x = true := by
  cases o <;> simp [Option.any]

theorem leave_channel_effect {connection_id : Nat} (channel_id : Nat) {s : Store}
    (hc : (lookupA connection_id s.connections).isSome = true) :
    (leave_channel connection_id channel_id s).connections_by_user_id
      = s.connections_by_user_id ∧
    (leave_channel connection_id channel_id s).projects = s.projects ∧
    (leave_channel connection_id channel_id s).rooms = s.rooms ∧
    (leave_channel connection_id channel_id s).next_room_id = s.next_room_id ∧
    (∀ k, (lookupA k (leave_channel connection_id channel_id s).connections).isSome
      = (lookupA k s.connections).isSome) ∧
    (∀ q, q ≠ channel_id →
      lookupA q (leave_channel connection_id channel_id s).channels
        = lookupA q s.channels) ∧
    (∀ chan, lookupA channel_id (leave_channel connection_id channel_id s).channels
      = some chan → connection_id ∉ chan.connection_ids) := by
  cases hcc : lookupA connection_id s.connections with
  | none => rw [hcc] at hc; simp at hc
  | some conn =>
    unfold leave_channel
    rw [hcc]
    cases hch : lookupA channel_id s.channels with
    | none =>
      simp only []
      refine ⟨by trivial, by trivial, by trivial, by trivial, ?_, ?_, ?_⟩
      · intro k; rw [isSome_lookupA_modifyA]
      · intro q hq; trivial
      · intro chan hchan
        rw [hch] at hchan
        simp at hchan
    | some ch =>
      by_cases he : removeS connection_id ch.connection_ids = []
      · simp only [he, if_true]
        refine ⟨by trivial, by trivial, by trivial, by trivial, ?_, ?_, ?_⟩
        · intro k; rw [isSome_lookupA_modifyA]
        · intro q hq; exact lookupA_eraseA_ne q channel_id _ hq
        · intro chan hchan
          rw [lookupA_eraseA_self] at hchan
          simp at hchan
      · simp only [he, if_false, ite_false]
        refine ⟨by trivial, by trivial, by trivial, by trivial, ?_, ?_, ?_⟩
        · intro k; rw [isSome_lookupA_modifyA]
        · intro q hq; exact lookupA_upsert_ne q channel_id _ _ hq
        · intro chan hchan
          rw [lookupA_upsert_self] at hchan
          cases hchan
          exact not_mem_removeS_self _ _

theorem leaveChannelFold_spec (connection_id : Nat) (chs : List Nat) :
    ∀ s : Store, (lookupA connection_id s.connections).isSome = true →
      (chs.foldl (fun st channel_id => leave_channel connection_id channel_id st)
          s).connections_by_user_id = s.connections_by_user_id ∧
      (chs.foldl (fun st channel_id => leave_channel connection_id channel_id st)
          s).projects = s.projects ∧
      (chs.foldl (fun st channel_id => leave_channel connection_id channel_id st)
          s).rooms = s.rooms ∧
      (chs.foldl (fun st channel_id => leave_channel connection_id channel_id st)
          s).next_room_id = s.next_room_id ∧
      (∀ k, (lookupA k (chs.foldl
          (fun st channel_id => leave_channel connection_id channel_id st)
          s).connections).isSome = (lookupA k s.connections).isSome) ∧
      (∀ q, q ∉ chs → lookupA q (chs.foldl
          (fun st channel_id => leave_channel connection_id channel_id st)
          s).channels = lookupA q s.channels) ∧
      (∀ q ∈ chs, ∀ chan, lookupA q (chs.foldl
          (fun st channel_id => leave_channel connection_id channel_id st)
          s).channels = some chan → connection_id ∉ chan.connection_ids) := by
  induction chs with
  | nil =>
    intro s _
    exact ⟨rfl, rfl, rfl, rfl, fun k => rfl, fun q _ => rfl,
      by intro q hq; simp at hq⟩
  | cons hd t ih =>
    intro s hc
    obtain ⟨e1, e2, e3, e4, e5, e6, e7⟩ := leave_channel_effect hd hc
    have hc' : (lookupA connection_id
        (leave_channel connection_id hd s).connections).isSome = true := by
      rw [e5]; exact hc
    obtain ⟨f1, f2, f3, f4, f5, f6, f7⟩ := ih (leave_channel connection_id hd s) hc'
    rw [List.foldl_cons]
    refine ⟨by rw [f1, e1], by rw [f2, e2], by rw [f3, e3], by rw [f4, e4],
      ?_, ?_, ?_⟩
    · intro k; rw [f5, e5]
    · intro q hq
      have hqhd : q ≠ hd := fun e => hq (e ▸ List.mem_cons_self hd t)
      have hqt : q ∉ t := fun e => hq (List.mem_cons_of_mem hd e)
      rw [f6 q hqt, e6 q hqhd]
    · intro q hq chan hchan
      by_cases hqt : q ∈ t
      · exact f7 q hqt chan hchan
      · have hqhd : q = hd := by
          rcases List.mem_cons.mp hq with h | h
          · exact h
          · exact absurd h hqt
        subst hqhd
        rw [f6 q hqt] at hchan
        exact e7 chan hchan

/-! ## Effect lemmas for the project loop of `remove_connection` -/

theorem removeConnectionProjectStep_spec (connection_id project_id : Nat)
    (acc : Store × RemovedConnectionState)
    (hc : (lookupA connection_id acc.1.connections).isSome = true) :
    ((removeConnectionProjectStep connection_id acc project_id).1.connections_by_user_id
      = acc.1.connections_by_user_id) ∧
    ((removeConnectionProjectStep connection_id acc project_id).1.rooms
      = acc.1.rooms) ∧
    ((removeConnectionProjectStep connection_id acc project_id).1.channels
      = acc.1.channels) ∧
    ((removeConnectionProjectStep connection_id acc project_id).1.next_room_id
      = acc.1.next_room_id) ∧
    (∀ k, (lookupA k
      (removeConnectionProjectStep connection_id acc project_id).1.connections).isSome
      = (lookupA k acc.1.connections).isSome) ∧
    (∀ q, q ≠ project_id → lookupA q
      (removeConnectionProjectStep connection_id acc project_id).1.projects
      = lookupA q acc.1.projects) ∧
    (∀ proj, lookupA project_id
      (removeConnectionProjectStep connection_id acc project_id).1.projects
      = some proj →
      proj.host_connection_id ≠ connection_id ∧
      lookupA connection_id proj.guests = none) := by
  cases hcc : lookupA connection_id acc.1.connections with
  | none => rw [hcc] at hc; simp at hc
  | some conn =>
    cases hp : lookupA project_id acc.1.projects with
    | none =>
      unfold removeConnectionProjectStep
      rw [unregister_project_eq_err_noproj hp]
      simp only []
      rw [leave_project_eq_err_noproj hcc hp]
      exact ⟨rfl, rfl, rfl, rfl, fun k => rfl, fun q _ => rfl,
        by intro proj hproj; rw [hp] at hproj; simp at hproj⟩
    | some proj =>
      by_cases hh : proj.host_connection_id = connection_id
      · unfold removeConnectionProjectStep
        rw [unregister_project_eq_ok hp hh]
        refine ⟨rfl, rfl, rfl, rfl, ?_, ?_, ?_⟩
        · intro k
          simp only []
          rw [isSome_requesterFold, isSome_removeProjectFromConnections,
            isSome_lookupA_modifyA]
        · intro q hq
          simp only []
          exact lookupA_eraseA_ne q project_id _ hq
        · intro proj' hproj'
          simp only [] at hproj'
          rw [lookupA_eraseA_self] at hproj'
          simp at hproj'
      · unfold removeConnectionProjectStep
        rw [unregister_project_eq_err_nothost hp hh]
        simp only []
        rw [leave_project_eq_ok hcc hp]
        refine ⟨rfl, rfl, rfl, rfl, ?_, ?_, ?_⟩
        · intro k
          simp only []
          rw [isSome_lookupA_modifyA]
        · intro q hq
          simp only []
          exact lookupA_upsert_ne q project_id _ _ hq
        · intro proj' hproj'
          simp only [] at hproj'
          rw [lookupA_upsert_self] at hproj'
          cases hproj'
          obtain ⟨c1, _, c3, _⟩ :=
            leaveProjectCore_fields connection_id conn.user_id proj
          exact ⟨by rw [c1]; exact hh, c3⟩

theorem removeConnectionProjectFold_spec (connection_id : Nat) (ps : List Nat) :
    ∀ (acc : Store × RemovedConnectionState),
      (lookupA connection_id acc.1.connections).isSome = true →
      ((ps.foldl (removeConnectionProjectStep connection_id) acc).1.connections_by_user_id
        = acc.1.connections_by_user_id) ∧
      ((ps.foldl (removeConnectionProjectStep connection_id) acc).1.rooms
        = acc.1.rooms) ∧
      ((ps.foldl (removeConnectionProjectStep connection_id) acc).1.channels
        = acc.1.channels) ∧
      ((ps.foldl (removeConnectionProjectStep connection_id) acc).1.next_room_id
        = acc.1.next_room_id) ∧
      (∀ k, (lookupA k
        (ps.foldl (removeConnectionProjectStep connection_id) acc).1.connections).isSome
        = (lookupA k acc.1.connections).isSome) ∧
      (∀ q, q ∉ ps → lookupA q
        (ps.foldl (removeConnectionProjectStep connection_id) acc).1.projects
        = lookupA q acc.1.projects) ∧
      (∀ q ∈ ps, ∀ proj, lookupA q
        (ps.foldl (removeConnectionProjectStep connection_id) acc).1.projects
        = some proj →
        proj.host_connection_id ≠ connection_id ∧
        lookupA connection_id proj.guests = none) := by
  induction ps with
  | nil =>
    intro acc _
    exact ⟨rfl, rfl, rfl, rfl, fun k => rfl, fun q _ => rfl,
      by intro q hq; simp at hq⟩
  | cons hd t ih =>
    intro acc hc
    obtain ⟨e1, e2, e3, e4, e5, e6, e7⟩ :=
      removeConnectionProjectStep_spec connection_id hd acc hc
    have hc' : (lookupA connection_id
        (removeConnectionProjectStep connection_id acc hd).1.connections).isSome
        = true := by rw [e5]; exact hc
    obtain ⟨f1, f2, f3, f4, f5, f6, f7⟩ :=
      ih (removeConnectionProjectStep connection_id acc hd) hc'
    rw [List.foldl_cons]
    refine ⟨by rw [f1, e1], by rw [f2, e2], by rw [f3, e3], by rw [f4, e4],
      ?_, ?_, ?_⟩
    · intro k; rw [f5, e5]
    · intro q hq
      have hqhd : q ≠ hd := fun e => hq (e ▸ List.mem_cons_self hd t)
      have hqt : q ∉ t := fun e => hq (List.mem_cons_of_mem hd e)
      rw [f6 q hqt, e6 q hqhd]
    · intro q hq proj hproj
      by_cases hqt : q ∈ t
      · exact f7 q hqt proj hproj
      · have hqhd : q = hd := by
          rcases List.mem_cons.mp hq with h | h
          · exact h
          · exact absurd h hqt
        subst hqhd
        rw [f6 q hqt] at hproj
        exact e7 proj hproj

/-! ## Assembling `remove_connection` -/

theorem remove_connection_eq {connection_id : Nat} {s : Store}
    {conn : ConnectionState}
    (hcc : lookupA connection_id s.connections = some conn) :
    remove_connection connection_id s =
      removeConnectionFinish connection_id conn.user_id
        ((conn.projects.foldl (removeConnectionProjectStep connection_id)
          (conn.channels.foldl
            (fun st channel_id => leave_channel connection_id channel_id st)
            (removeConnectionPrep connection_id s),
           { user_id := conn.user_id, hosted_projects := [],
             guest_project_ids := [], contact_ids := [] })).2)
        ((conn.projects.foldl (removeConnectionProjectStep connection_id)
          (conn.channels.foldl
            (fun st channel_id => leave_channel connection_id channel_id st)
            (removeConnectionPrep connection_id s),
           { user_id := conn.user_id, hosted_projects := [],
             guest_project_ids := [], contact_ids := [] })).1) := by
  unfold remove_connection
  rw [hcc]

theorem removeConnectionFinish_spec (connection_id user_id : Nat)
    (result : RemovedConnectionState) (s3 : Store) {ucs : UserConnectionState}
    (hu : lookupA user_id s3.connections_by_user_id = some ucs)
    (hconn : (lookupA connection_id s3.connections).isSome = true) :
    (removeConnectionFinish connection_id user_id result s3).1 = .ok result ∧
    (removeConnectionFinish connection_id user_id result s3).2.connections
      = eraseA connection_id s3.connections ∧
    (removeConnectionFinish connection_id user_id result s3).2.projects
      = s3.projects ∧
    (removeConnectionFinish connection_id user_id result s3).2.rooms = s3.rooms ∧
    (removeConnectionFinish connection_id user_id result s3).2.channels
      = s3.channels ∧
    (removeConnectionFinish connection_id user_id result s3).2.next_room_id
      = s3.next_room_id ∧
    (∀ u ucs', lookupA u
        (removeConnectionFinish connection_id user_id result s3).2.connections_by_user_id
        = some ucs' →
      (u = user_id ∧
        ucs' = { ucs with
          connection_ids := removeS connection_id ucs.connection_ids }) ∨
      (u ≠ user_id ∧ lookupA u s3.connections_by_user_id = some ucs')) := by
  cases hcc : lookupA connection_id s3.connections with
  | none => rw [hcc] at hconn; simp at hconn
  | some cc =>
    unfold removeConnectionFinish
    rw [hu]
    by_cases hrem : removeS connection_id ucs.connection_ids = []
    · simp only [hrem, if_true]
      rw [hcc]
      refine ⟨rfl, rfl, rfl, rfl, rfl, rfl, ?_⟩
      intro u ucs' h
      by_cases hue : u = user_id
      · subst hue
        rw [lookupA_eraseA_self] at h
        simp at h
      · right
        refine ⟨hue, ?_⟩
        rw [← lookupA_eraseA_ne u user_id s3.connections_by_user_id hue]
        exact h
    · simp only [hrem, if_false, ite_false]
      rw [hcc]
      refine ⟨rfl, rfl, rfl, rfl, rfl, rfl, ?_⟩
      intro u ucs' h
      by_cases hue : u = user_id
      · subst hue
        left
        rw [lookupA_modifyA_self, hu] at h
        simp only [Option.map_some'] at h
        cases h
        exact ⟨rfl, rfl⟩
      · right
        refine ⟨hue, ?_⟩
        rw [← lookupA_modifyA_ne u user_id _ s3.connections_by_user_id hue]
        exact h

/-! ## Extraction helpers for the invariants -/

theorem inv_conn_user_entry {s : Store} (hicu : InvConnectionUser s)
    {connection_id : Nat} {conn : ConnectionState}
    (hcc : lookupA connection_id s.connections = some conn) :
    ∃ ucs, lookupA conn.user_id s.connections_by_user_id = some ucs ∧
      connection_id ∈ ucs.connection_ids := by
  have := hicu (connection_id, conn) (lookupA_mem hcc)
  rw [option_any_eq_true_iff] at this
  obtain ⟨ucs, h1, h2⟩ := this
  exact ⟨ucs, h1, by simpa using h2⟩

theorem inv_user_back {s : Store} (hiuc : InvUserConnections s)
    {u : Nat} {ucs : UserConnectionState}
    (hu : lookupA u s.connections_by_user_id = some ucs)
    {c : Nat} (hc : c ∈ ucs.connection_ids) :
    ∃ conn, lookupA c s.connections = some conn ∧ conn.user_id = u := by
  have := hiuc (u, ucs) (lookupA_mem hu) c hc
  rw [option_any_eq_true_iff] at this
  obtain ⟨conn, h1, h2⟩ := this
  exact ⟨conn, h1, by simpa using h2⟩

theorem inv_channel_back {s : Store} (hichc : InvChannelConnections s)
    {ch : Nat} {chan : Channel}
    (hch : lookupA ch s.channels = some chan)
    {c : Nat} (hc : c ∈ chan.connection_ids) :
    ∃ conn, lookupA c s.connections = some conn ∧ ch ∈ conn.channels := by
  have := hichc (ch, chan) (lookupA_mem hch) c hc
  rw [option_any_eq_true_iff] at this
  obtain ⟨conn, h1, h2⟩ := this
  exact ⟨conn, h1, by simpa using h2⟩

theorem inv_project_host_back {s : Store} (hipc : InvProjectConnections s)
    {p : Nat} {project : Project}
    (hp : lookupA p s.projects = some project) :
    ∃ conn, lookupA project.host_connection_id s.connections = some conn ∧
      p ∈ conn.projects := by
  have := (hipc (p, project) (lookupA_mem hp)).1
  rw [option_any_eq_true_iff] at this
  obtain ⟨conn, h1, h2⟩ := this
  exact ⟨conn, h1, by simpa using h2⟩

theorem inv_project_guest_back {s : Store} (hipc : InvProjectConnections s)
    {p : Nat} {project : Project}
    (hp : lookupA p s.projects = some project)
    {g : Nat} (hg : g ∈ keysA project.guests) :
    ∃ conn, lookupA g s.connections = some conn ∧ p ∈ conn.projects := by
  have := (hipc (p, project) (lookupA_mem hp)).2 g hg
  rw [option_any_eq_true_iff] at this
  obtain ⟨conn, h1, h2⟩ := this
  exact ⟨conn, h1, by simpa using h2⟩

theorem key_mem_of_lookup_some {K V : Type} [DecidableEq K] {k : K} {v : V}
    {l : AList K V} (h : lookupA k l = some v) : k ∈ keysA l := by
  have := lookupA_mem h
  exact List.mem_map.mpr ⟨(k, v), this, rfl⟩

/-! ## Claim C1 -/

/-- **C1 (amended).**  For every store satisfying the invariants and every
`connection_id` present in `connections`, `remove_connection(connection_id)`
succeeds, and afterwards no entry of `connections`, of any user's connection
set, of any channel's member set, or of any project's `host_connection_id`
and `guests` map refers to `connection_id`.  (The claim's further assertions
— absence from every join-request receipt's `sender_id` and from every
room's participant peer ids — do **not** hold; see the counterexample.) -/
theorem c1_remove_connection_no_dangling_amended (connection_id : Nat)
    (s : Store) (hinv : StoreInv s)
    (hc : containsKeyA connection_id s.connections = true) :
    (remove_connection connection_id s).1.isOk = true ∧
    NoDanglingConnection connection_id (remove_connection connection_id s).2 := by
  obtain ⟨hwf, hicp, hiwp, hicc, hicu, hiuc, hipc, hiri, hichc⟩ := hinv
  cases hcc : lookupA connection_id s.connections with
  | none => rw [containsKeyA, hcc] at hc; simp at hc
  | some conn =>
  rw [remove_connection_eq hcc]
  have hprepSome : ∀ k,
      (lookupA k (removeConnectionPrep connection_id s).connections).isSome
        = (lookupA k s.connections).isSome :=
    fun k => isSome_lookupA_modifyA k connection_id _ s.connections
  have hc1 : (lookupA connection_id
      (removeConnectionPrep connection_id s).connections).isSome = true := by
    rw [hprepSome, hcc]; rfl
  obtain ⟨c1, c2, c3, c4, c5, c6, c7⟩ :=
    leaveChannelFold_spec connection_id conn.channels
      (removeConnectionPrep connection_id s) hc1
  have hc2 : (lookupA connection_id
      ((conn.channels.foldl
        (fun st channel_id => leave_channel connection_id channel_id st)
        (removeConnectionPrep connection_id s),
        ({ user_id := conn.user_id, hosted_projects := [],
           guest_project_ids := [], contact_ids := [] } :
          RemovedConnectionState)) : Store × RemovedConnectionState).1.connections).isSome
      = true := by
    show (lookupA connection_id (conn.channels.foldl
      (fun st channel_id => leave_channel connection_id channel_id st)
      (removeConnectionPrep connection_id s)).connections).isSome = true
    rw [c5, hc1]
  obtain ⟨p1, p2, p3, p4, p5, p6, p7⟩ :=
    removeConnectionProjectFold_spec connection_id conn.projects
      (conn.channels.foldl
        (fun st channel_id => leave_channel connection_id channel_id st)
        (removeConnectionPrep connection_id s),
       { user_id := conn.user_id, hosted_projects := [],
         guest_project_ids := [], contact_ids := [] }) hc2
  -- facts about the store after the two unwind loops
  have husers3 : (conn.projects.foldl (removeConnectionProjectStep connection_id)
      (conn.channels.foldl
        (fun st channel_id => leave_channel connection_id channel_id st)
        (removeConnectionPrep connection_id s),
       { user_id := conn.user_id, hosted_projects := [],
         guest_project_ids := [], contact_ids := [] })).1.connections_by_user_id
      = s.connections_by_user_id := by
    rw [p1]
    show (conn.channels.foldl
      (fun st channel_id => leave_channel connection_id channel_id st)
      (removeConnectionPrep connection_id s)).connections_by_user_id
      = s.connections_by_user_id
    rw [c1]
    rfl
  have hchannels3 : (conn.projects.foldl (removeConnectionProjectStep connection_id)
      (conn.channels.foldl
        (fun st channel_id => leave_channel connection_id channel_id st)
        (removeConnectionPrep connection_id s),
       { user_id := conn.user_id, hosted_projects := [],
         guest_project_ids := [], contact_ids := [] })).1.channels
      = (conn.channels.foldl
        (fun st channel_id => leave_channel connection_id channel_id st)
        (removeConnectionPrep connection_id s)).channels := by
    rw [p3]
  have hconn3 : (lookupA connection_id
      (conn.projects.foldl (removeConnectionProjectStep connection_id)
        (conn.channels.foldl
          (fun st channel_id => leave_channel connection_id channel_id st)
          (removeConnectionPrep connection_id s),
         { user_id := conn.user_id, hosted_projects := [],
           guest_project_ids := [], contact_ids := [] })).1.connections).isSome
      = true := by
    rw [p5]
    exact hc2
  obtain ⟨ucs, hucs, hcmem⟩ := inv_conn_user_entry hicu hcc
  have husers3' : lookupA conn.user_id
      (conn.projects.foldl (removeConnectionProjectStep connection_id)
        (conn.channels.foldl
          (fun st channel_id => leave_channel connection_id channel_id st)
          (removeConnectionPrep connection_id s),
         { user_id := conn.user_id, hosted_projects := [],
           guest_project_ids := [], contact_ids := [] })).1.connections_by_user_id
      = some ucs := by
    rw [husers3]
    exact hucs
  obtain ⟨f1, f2, f3, f4, f5, f6, f7⟩ :=
    removeConnectionFinish_spec connection_id conn.user_id
      ((conn.projects.foldl (removeConnectionProjectStep connection_id)
        (conn.channels.foldl
          (fun st channel_id => leave_channel connection_id channel_id st)
          (removeConnectionPrep connection_id s),
         { user_id := conn.user_id, hosted_projects := [],
           guest_project_ids := [], contact_ids := [] })).2)
      ((conn.projects.foldl (removeConnectionProjectStep connection_id)
        (conn.channels.foldl
          (fun st channel_id => leave_channel connection_id channel_id st)
          (removeConnectionPrep connection_id s),
         { user_id := conn.user_id, hosted_projects := [],
           guest_project_ids := [], contact_ids := [] })).1)
      husers3' hconn3
  refine ⟨by rw [f1]; rfl, ?_, ?_, ?_, ?_⟩
  · -- absent from connections
    rw [f2]
    exact lookupA_eraseA_self _ _
  · -- absent from every user's connection set
    intro u ucs' h
    rcases f7 u ucs' h with ⟨_, rfl⟩ | ⟨hune, hlook⟩
    · exact not_mem_removeS_self _ _
    · rw [husers3] at hlook
      intro habs
      obtain ⟨conn2, hconn2, huser2⟩ := inv_user_back hiuc hlook habs
      rw [hcc] at hconn2
      cases hconn2
      exact hune huser2.symm
  · -- absent from every channel's member set
    intro ch chan h
    rw [f5, hchannels3] at h
    by_cases hchm : ch ∈ conn.channels
    · exact c7 ch hchm chan h
    · rw [c6 ch hchm] at h
      intro habs
      obtain ⟨conn2, hconn2, hchan2⟩ := inv_channel_back hichc h habs
      rw [hcc] at hconn2
      cases hconn2
      exact hchm hchan2
  · -- neither host nor guest of any project
    intro p project h
    rw [f3] at h
    by_cases hpm : p ∈ conn.projects
    · exact p7 p hpm project h
    · rw [p6 p hpm] at h
      have h' : lookupA p s.projects = some project := by
        rw [← h]
        show lookupA p s.projects = lookupA p (conn.channels.foldl
          (fun st channel_id => leave_channel connection_id channel_id st)
          (removeConnectionPrep connection_id s)).projects
        rw [c2]
        rfl
      constructor
      · intro habs
        obtain ⟨conn2, hconn2, hpmem2⟩ := inv_project_host_back hipc h'
        rw [habs, hcc] at hconn2
        cases hconn2
        exact hpm hpmem2
      · cases hg : lookupA connection_id project.guests with
        | none => rfl
        | some g =>
          obtain ⟨conn2, hconn2, hpmem2⟩ :=
            inv_project_guest_back hipc h' (key_mem_of_lookup_some hg)
          rw [hcc] at hconn2
          cases hconn2
          exact absurd hpmem2 hpm

/-- **C1 counterexample.**  `sC1` satisfies the invariants and holds
connection 3, and `remove_connection 3` succeeds — yet the store afterwards
still refers to connection 3: room 0 keeps participant peer id 3, and
project 100 keeps a join-request receipt whose `sender_id` is 3.  This
falsifies the claim's "absent from every join-request receipt's sender_id
and from every room's participant peer ids". -/
theorem c1_counterexample :
    StoreInv sC1 ∧ containsKeyA 3 sC1.connections = true ∧
    (remove_connection 3 sC1).1.isOk = true ∧
    refersToConnection 3 (remove_connection 3 sC1).2 = true ∧
    ((lookupA 0 (remove_connection 3 sC1).2.rooms).any
      (fun room => room.participants.any (fun p => decide (p.peer_id = 3)))) = true ∧
    ((lookupA 100 (remove_connection 3 sC1).2.projects).any
      (fun project => project.join_requests.any
        (fun jr => jr.2.any (fun r => decide (r.sender_id = 3))))) = true := by
  decide

/-- **C1 witness**: the amended theorem applied to the concrete store `sC1`
and connection 3. -/
theorem c1_witness :
    (remove_connection 3 sC1).1.isOk = true ∧
    NoDanglingConnection 3 (remove_connection 3 sC1).2 :=
  c1_remove_connection_no_dangling_amended 3 sC1 (by decide) (by decide)

/-! ## Claim C2 -/

/-- **C2 (code bug).**  `sC2` is reachable (the requesting connection 2
disconnected after `request_join_project`, leaving a receipt whose sender is
gone).  Both `deny_join_project_request` and `accept_join_project_request`
then return `None` — but only after removing the requester's `join_requests`
entry, so the store is mutated on the failure path: the operation is not
all-or-nothing, contradicting the specified error-handling design. -/
theorem c2_deny_accept_not_atomic :
    ((lookupA 100 sC2.projects).any
      (fun p => containsKeyA 20 p.join_requests)) = true ∧
    ((lookupA 2 sC2.connections).isSome = false) ∧
    (deny_join_project_request 1 20 100 0 sC2).1 = none ∧
    (deny_join_project_request 1 20 100 0 sC2).2 ≠ sC2 ∧
    ((lookupA 100 ((deny_join_project_request 1 20 100 0 sC2).2).projects).any
      (fun p => containsKeyA 20 p.join_requests)) = false ∧
    (accept_join_project_request 1 20 100 0 sC2).1 = none ∧
    (accept_join_project_request 1 20 100 0 sC2).2 ≠ sC2 := by
  decide

/-! ## Claim C3 -/

theorem mem_clearWorktreeData {wt : Nat × Worktree} {W : AList Nat Worktree}
    (h : wt ∈ clearWorktreeData W) :
    wt.2.entries = [] ∧ wt.2.diagnostic_summaries = [] := by
  unfold clearWorktreeData at h
  obtain ⟨pr, _, rfl⟩ := List.mem_map.mp h
  exact ⟨rfl, rfl⟩

theorem update_project_eq_offline {project_id connection_id : Nat}
    {worktrees : List WorktreeMetadata} {s : Store} {proj : Project}
    (hp : lookupA project_id s.projects = some proj)
    (hh : proj.host_connection_id = connection_id)
    (ho : proj.online = true) :
    update_project project_id worktrees false connection_id s =
      (.ok (some ⟨proj.guests, proj.join_requests⟩),
       { s with
         connections := removeProjectFromConnections project_id
             (keysA proj.guests) s.connections,
         projects := upsert project_id
             { proj with
               online := false,
               worktrees := clearWorktreeData
                   (reconcileWorktrees worktrees proj.worktrees),
               active_replica_ids := [], language_servers := [],
               guests := [], join_requests := [] } s.projects }) := by
  unfold update_project
  rw [hp]
  simp [Project.guest_connection_ids, hh, ho]

/-- **C3 (amended).**  Taking an online project offline returns
`Some(UnsharedProject)` carrying the moved-out `guests` and `join_requests`,
removes the project id from every guest connection's `projects` set, and
clears `active_replica_ids`, `language_servers` and every worktree's
`entries` and `diagnostic_summaries` — but it does **not** touch any
requester connection's `requested_projects` (see the counterexample). -/
theorem c3_update_project_offline_amended (project_id connection_id : Nat)
    (worktrees : List WorktreeMetadata) (s : Store) (proj : Project)
    (hp : lookupA project_id s.projects = some proj)
    (hh : proj.host_connection_id = connection_id)
    (ho : proj.online = true) :
    (update_project project_id worktrees false connection_id s).1
      = .ok (some ⟨proj.guests, proj.join_requests⟩) ∧
    (∀ g ∈ keysA proj.guests, ∀ conn2,
      lookupA g
          (update_project project_id worktrees false connection_id s).2.connections
        = some conn2 → project_id ∉ conn2.projects) ∧
    (∃ projF, lookupA project_id
        (update_project project_id worktrees false connection_id s).2.projects
        = some projF ∧
      projF.online = false ∧
      projF.active_replica_ids = [] ∧ projF.language_servers = [] ∧
      projF.guests = [] ∧ projF.join_requests = [] ∧
      (∀ wt ∈ projF.worktrees,
        wt.2.entries = [] ∧ wt.2.diagnostic_summaries = [])) := by
  rw [update_project_eq_offline hp hh ho]
  refine ⟨rfl, ?_, ?_⟩
  · intro g hg conn2 hconn2
    exact lookupA_removeProjectFromConnections_mem _ g hg conn2 hconn2
  · refine ⟨_, lookupA_upsert_self _ _ _, rfl, rfl, rfl, rfl, rfl, ?_⟩
    intro wt hwt
    exact mem_clearWorktreeData hwt

/-- **C3 counterexample.**  In `sC3` (host connection 1, online project 100,
outstanding requester user 20 on connection 2), taking the project offline
succeeds — but connection 2's `requested_projects` still contains 100
afterwards, contradicting the claim's "removes project_id from every
outstanding requester connection's requested_projects set". -/
theorem c3_counterexample :
    StoreInv sC3 ∧
    ((lookupA 100 sC3.projects).any (fun p =>
      decide (p.host_connection_id = 1) && p.online)) = true ∧
    ((lookupA 2 sC3.connections).any
      (fun c => decide (100 ∈ c.requested_projects))) = true ∧
    (update_project 100 [] false 1 sC3).1.isOk = true ∧
    ((lookupA 2 ((update_project 100 [] false 1 sC3).2).connections).any
      (fun c => decide (100 ∈ c.requested_projects))) = true := by
  decide

/-- **C3 witness**: the amended theorem applied to `sC3w`, where connection 2
is a guest of project 100. -/
theorem c3_witness :
    (update_project 100 [] false 1 sC3w).1
      = .ok (some ⟨projC3w.guests, projC3w.join_requests⟩) ∧
    (∀ g ∈ keysA projC3w.guests, ∀ conn2,
      lookupA g (update_project 100 [] false 1 sC3w).2.connections
        = some conn2 → 100 ∉ conn2.projects) ∧
    (∃ projF, lookupA 100 (update_project 100 [] false 1 sC3w).2.projects
        = some projF ∧
      projF.online = false ∧
      projF.active_replica_ids = [] ∧ projF.language_servers = [] ∧
      projF.guests = [] ∧ projF.join_requests = [] ∧
      (∀ wt ∈ projF.worktrees,
        wt.2.entries = [] ∧ wt.2.diagnostic_summaries = [])) :=
  c3_update_project_offline_amended 100 1 [] sC3w projC3w
    (by decide) (by decide) (by decide)

/-! ## Claim C4 -/

/-- On a successful accept, every returned pair's replica id is the least
positive id absent from the active set at the moment of its assignment
(original active ids plus the ids assigned by the earlier receipts of the
same call), and the host's replica id is untouched. -/
theorem accept_spec (responder_connection_id requester_id project_id : Nat)
    (now : Int) (s : Store) (proj : Project)
    (pairs : List (Receipt × Nat)) (projF : Project) (s' : Store)
    (hp : lookupA project_id s.projects = some proj)
    (hacc : accept_join_project_request responder_connection_id requester_id
      project_id now s = (some (pairs, projF), s')) :
    (∀ k (hk : k < pairs.length),
      IsLeastFreeReplica (pairs.get ⟨k, hk⟩).2
        (proj.active_replica_ids ++ (pairs.take k).map (·.2))) ∧
    projF.host.replica_id = proj.host.replica_id := by
  unfold accept_join_project_request at hacc
  rw [hp] at hacc
  simp only [] at hacc
  by_cases hresp : responder_connection_id ≠ proj.host_connection_id
  · rw [if_pos hresp] at hacc
    simp at hacc
  · rw [if_neg hresp] at hacc
    cases hjr : lookupA requester_id proj.join_requests with
    | none => rw [hjr] at hacc; simp at hacc
    | some receipts =>
      rw [hjr] at hacc
      simp only [] at hacc
      obtain ⟨newPairs, l1, l2, l3⟩ :=
        acceptLoop_spec project_id requester_id now receipts
          ⟨s.connections, proj.guests, proj.active_replica_ids, []⟩
      cases hloop : acceptLoop project_id requester_id now receipts
          ⟨s.connections, proj.guests, proj.active_replica_ids, []⟩ with
      | mk flag st =>
        rw [hloop] at hacc l1 l2
        cases flag with
        | false => simp at hacc
        | true =>
          simp only [Prod.mk.injEq, Option.some.injEq] at hacc
          obtain ⟨⟨hpairs, hprojF⟩, _⟩ := hacc
          simp only [List.nil_append] at l1
          constructor
          · intro k hk
            have hk' : k < newPairs.length := by rw [← l1, hpairs]; exact hk
            have := l3 k hk'
            have hpn : pairs = newPairs := by rw [← hpairs, l1]
            subst hpn
            simpa using this
          · rw [← hprojF]

/-- `leave_project` on a guest frees exactly that guest's replica id and
leaves the host's replica id untouched. -/
theorem leave_project_frees_replica (connection_id project_id : Nat)
    (s : Store) (conn : ConnectionState) (proj : Project) (guest : Collaborator)
    (hc : lookupA connection_id s.connections = some conn)
    (hp : lookupA project_id s.projects = some proj)
    (hg : lookupA connection_id proj.guests = some guest) :
    ∃ projF, lookupA project_id
        (leave_project connection_id project_id s).2.projects = some projF ∧
      projF.active_replica_ids
        = removeS guest.replica_id proj.active_replica_ids ∧
      guest.replica_id ∉ projF.active_replica_ids ∧
      projF.host.replica_id = proj.host.replica_id := by
  rw [leave_project_eq_ok hc hp]
  obtain ⟨_, c2, _, c4⟩ := leaveProjectCore_fields connection_id conn.user_id proj
  have hactive : (leaveProjectCore connection_id conn.user_id proj).2.active_replica_ids
      = removeS guest.replica_id proj.active_replica_ids := by
    rw [c4]
    unfold leaveProjectGuestStep
    rw [hg]
  refine ⟨(leaveProjectCore connection_id conn.user_id proj).2,
    lookupA_upsert_self _ _ _, hactive, ?_, by rw [c2]⟩
  rw [hactive]
  exact not_mem_removeS_self _ _

/-- `register_project` fixes the host collaborator's replica id at 0. -/
theorem register_project_host_replica (host_connection_id project_id : Nat)
    (online : Bool) (s : Store) (conn : ConnectionState)
    (hc : lookupA host_connection_id s.connections = some conn) :
    ∃ projF, lookupA project_id
        (register_project host_connection_id project_id online s).2.projects
        = some projF ∧
      projF.host.replica_id = 0 ∧ projF.host.user_id = conn.user_id := by
  unfold register_project
  rw [hc]
  exact ⟨_, lookupA_upsert_self _ _ _, rfl, rfl⟩

/-- **C4 (amended).**  (1) Each receipt accepted by
`accept_join_project_request` is assigned the smallest positive replica id
absent from `active_replica_ids` at the moment of its assignment —
assignments within one call are sequential, each later receipt seeing the
earlier assignments.  (2) `leave_project` on a guest removes exactly that
guest's replica id from `active_replica_ids`, making it available again; a
freed id is reused once it is the smallest free id (but not necessarily by
the very next assignment — see the counterexample).  (3) The host's replica
id is 0 at registration and is preserved by accept and leave. -/
theorem c4_replica_allocation_amended :
    (∀ (responder_connection_id requester_id project_id : Nat) (now : Int)
        (s : Store) (proj : Project) (pairs : List (Receipt × Nat))
        (projF : Project) (s' : Store),
      lookupA project_id s.projects = some proj →
      accept_join_project_request responder_connection_id requester_id
        project_id now s = (some (pairs, projF), s') →
      (∀ k (hk : k < pairs.length),
        IsLeastFreeReplica (pairs.get ⟨k, hk⟩).2
          (proj.active_replica_ids ++ (pairs.take k).map (·.2))) ∧
      projF.host.replica_id = proj.host.replica_id) ∧
    (∀ (connection_id project_id : Nat) (s : Store) (conn : ConnectionState)
        (proj : Project) (guest : Collaborator),
      lookupA connection_id s.connections = some conn →
      lookupA project_id s.projects = some proj →
      lookupA connection_id proj.guests = some guest →
      ∃ projF, lookupA project_id
          (leave_project connection_id project_id s).2.projects = some projF ∧
        projF.active_replica_ids
          = removeS guest.replica_id proj.active_replica_ids ∧
        guest.replica_id ∉ projF.active_replica_ids ∧
        projF.host.replica_id = proj.host.replica_id) ∧
    (∀ (host_connection_id project_id : Nat) (online : Bool) (s : Store)
        (conn : ConnectionState),
      lookupA host_connection_id s.connections = some conn →
      ∃ projF, lookupA project_id
          (register_project host_connection_id project_id online s).2.projects
          = some projF ∧
        projF.host.replica_id = 0 ∧ projF.host.user_id = conn.user_id) :=
  ⟨fun a b c d e f g h i hp hacc => accept_spec a b c d e f g h i hp hacc,
   fun a b c d e f hc hp hg => leave_project_frees_replica a b c d e f hc hp hg,
   fun a b c d e hc => register_project_host_replica a b c d e hc⟩

/-- **C4 counterexample.**  In `sC4b` the guests hold replica ids 1 and 3;
connection 4 is the guest with replica id 3.  `leave_project(4, 100)` frees
replica id 3, yet the next assignment (accepting user 50 in `sC4c`) hands
out replica id 2 — the freed id is *not* reused by the next assignment,
contradicting that part of the claim. -/
theorem c4_counterexample :
    ((lookupA 100 sC4b.projects).any (fun p =>
      (lookupA 4 p.guests).any (fun g => decide (g.replica_id = 3)))) = true ∧
    ((lookupA 100 ((leave_project 4 100 sC4b).2).projects).any (fun p =>
      decide (3 ∉ p.active_replica_ids) &&
      decide (p.active_replica_ids = [1]))) = true ∧
    ((accept_join_project_request 1 50 100 0 sC4c).1).map
      (fun pr => pr.1.map (fun x => x.2)) = some [2] := by
  decide

/-- **C4 witness**: the amended theorem applied at concrete inputs — the
accept in `sC3` (assigning replica id 1), the leave of guest 3 in `sC4a`
(freeing replica id 2), and a fresh registration (host replica id 0). -/
theorem c4_witness :
    ((∀ k (hk : k < pairsC4.length),
        IsLeastFreeReplica (pairsC4.get ⟨k, hk⟩).2
          (projC3.active_replica_ids ++ (pairsC4.take k).map (·.2))) ∧
      projC3w.host.replica_id = projC3.host.replica_id) ∧
    (∃ projF, lookupA 100 (leave_project 3 100 sC4a).2.projects = some projF ∧
      projF.active_replica_ids
        = removeS guestC4.replica_id projC4a.active_replica_ids ∧
      guestC4.replica_id ∉ projF.active_replica_ids ∧
      projF.host.replica_id = projC4a.host.replica_id) ∧
    (∃ projF, lookupA 100
        (register_project 1 100 true (add_connection 1 10 false emptyStore)).2.projects
        = some projF ∧
      projF.host.replica_id = 0 ∧ projF.host.user_id = connC4r.user_id) :=
  ⟨c4_replica_allocation_amended.1 1 20 100 0 sC3 projC3 pairsC4 projC3w sC3w
      (by decide) (by decide),
   c4_replica_allocation_amended.2.1 3 100 sC4a connC4a3 projC4a guestC4
      (by decide) (by decide) (by decide),
   c4_replica_allocation_amended.2.2 1 100 true
      (add_connection 1 10 false emptyStore) connC4r (by decide)⟩

/-! ## Claim C5 -/

theorem lookupA_append_of_none {K V : Type} [DecidableEq K] {k : K}
    {l1 : AList K V} (l2 : AList K V) (h : lookupA k l1 = none) :
    lookupA k (l1 ++ l2) = lookupA k l2 := by
  induction l1 with
  | nil => rfl
  | cons hd t ih =>
    obtain ⟨k', v'⟩ := hd
    by_cases hk : k' = k
    · subst hk; simp [lookupA] at h
    · simp only [lookupA, hk] at h
      simp only [List.cons_append, lookupA, hk, if_false, ite_false]
      exact ih h

theorem eraseA_append {K V : Type} [DecidableEq K] (k : K) (l1 l2 : AList K V) :
    eraseA k (l1 ++ l2) = eraseA k l1 ++ eraseA k l2 := by
  unfold eraseA
  exact List.filter_append _ _

theorem eraseA_upsert_of_none {K V : Type} [DecidableEq K] {k : K} (v : V)
    {l : AList K V} (h : lookupA k l = none) :
    eraseA k (upsert k v l) = l := by
  rw [upsert_of_lookup_none v h, eraseA_append, eraseA_of_lookup_none h]
  simp [eraseA]

theorem removeConnectionFinish_eq_empty {connection_id user_id : Nat}
    {result : RemovedConnectionState} {s3 : Store} {ucs : UserConnectionState}
    (hu : lookupA user_id s3.connections_by_user_id = some ucs)
    {cc : ConnectionState}
    (hcs : lookupA connection_id s3.connections = some cc)
    (hrem : removeS connection_id ucs.connection_ids = []) :
    removeConnectionFinish connection_id user_id result s3 =
      (.ok result,
       { s3 with
         connections_by_user_id := eraseA user_id s3.connections_by_user_id,
         connections := eraseA connection_id s3.connections }) := by
  unfold removeConnectionFinish
  rw [hu]
  simp only [hrem, if_true]
  rw [hcs]

theorem removeConnectionFinish_eq_nonempty {connection_id user_id : Nat}
    {result : RemovedConnectionState} {s3 : Store} {ucs : UserConnectionState}
    (hu : lookupA user_id s3.connections_by_user_id = some ucs)
    {cc : ConnectionState}
    (hcs : lookupA connection_id s3.connections = some cc)
    (hrem : removeS connection_id ucs.connection_ids ≠ []) :
    removeConnectionFinish connection_id user_id result s3 =
      (.ok result,
       { s3 with
         connections_by_user_id := modifyA user_id
           (fun u => { u with
             connection_ids := removeS connection_id ucs.connection_ids })
           s3.connections_by_user_id,
         connections := eraseA connection_id s3.connections }) := by
  unfold removeConnectionFinish
  rw [hu]
  simp only [hrem, if_false, ite_false]
  rw [hcs]

/-- **C5 (amended).**  `add_connection` of an absent `connection_id` followed
by `remove_connection` restores the store exactly, *provided* the store
satisfies the user-table invariants: no user entry already lists
`connection_id` and no user entry has an empty connection set.  (An
unreachable store violating these — e.g. a user entry with an empty
connection set — is not restored; see the counterexample.) -/
theorem c5_add_remove_roundtrip_amended (connection_id user_id : Nat)
    (admin : Bool) (s : Store)
    (hc : lookupA connection_id s.connections = none)
    (hu : ∀ up ∈ s.connections_by_user_id,
      connection_id ∉ up.2.connection_ids ∧ up.2.connection_ids ≠ []) :
    remove_connection connection_id (add_connection connection_id user_id admin s)
      = (.ok { user_id := user_id, hosted_projects := [],
               guest_project_ids := [], contact_ids := [] }, s) := by
  have hfresh : lookupA connection_id
      (add_connection connection_id user_id admin s).connections
      = some { user_id := user_id, admin := admin, projects := [],
               requested_projects := [], channels := [] } := by
    unfold add_connection
    simp only []
    exact lookupA_upsert_self _ _ _
  have hconnsAdd : (add_connection connection_id user_id admin s).connections
      = upsert connection_id
        { user_id := user_id, admin := admin, projects := [],
          requested_projects := [], channels := [] } s.connections := rfl
  rw [remove_connection_eq hfresh]
  have hprep : removeConnectionPrep connection_id
      (add_connection connection_id user_id admin s)
      = add_connection connection_id user_id admin s := by
    have hfix : ∀ v : ConnectionState,
        lookupA connection_id
          (add_connection connection_id user_id admin s).connections = some v →
        ({ v with projects := [], channels := [] } : ConnectionState) = v := by
      intro v hv
      rw [hfresh] at hv
      cases hv
      rfl
    unfold removeConnectionPrep
    simp only []
    rw [modifyA_fix hfix]
  show removeConnectionFinish connection_id user_id
    { user_id := user_id, hosted_projects := [], guest_project_ids := [],
      contact_ids := [] }
    (removeConnectionPrep connection_id
      (add_connection connection_id user_id admin s))
    = (.ok { user_id := user_id, hosted_projects := [],
             guest_project_ids := [], contact_ids := [] }, s)
  rw [hprep]
  cases hcont : containsKeyA user_id s.connections_by_user_id with
  | true =>
    have hl : ∃ ucs0, lookupA user_id s.connections_by_user_id = some ucs0 := by
      rw [containsKeyA] at hcont
      cases hll : lookupA user_id s.connections_by_user_id with
      | none => rw [hll] at hcont; simp at hcont
      | some u0 => exact ⟨u0, rfl⟩
    obtain ⟨ucs0, hl⟩ := hl
    have husers : (add_connection connection_id user_id admin s).connections_by_user_id
        = modifyA user_id
          (fun u => { u with
            connection_ids := insertS connection_id u.connection_ids })
          s.connections_by_user_id := by
      unfold add_connection
      simp only [hcont, if_true]
    have hlook : lookupA user_id
        (add_connection connection_id user_id admin s).connections_by_user_id
        = some { ucs0 with
            connection_ids := insertS connection_id ucs0.connection_ids } := by
      rw [husers, lookupA_modifyA_self, hl]
      rfl
    obtain ⟨hmem0, hne0⟩ := hu (user_id, ucs0) (lookupA_mem hl)
    have hrem : removeS connection_id
        (insertS connection_id ucs0.connection_ids) = ucs0.connection_ids :=
      removeS_insertS_of_not_mem hmem0
    rw [removeConnectionFinish_eq_nonempty hlook hfresh
      (by simp only []; rw [hrem]; exact hne0)]
    have husersFinal : modifyA user_id
        (fun u => { u with
          connection_ids := removeS connection_id
            (insertS connection_id ucs0.connection_ids) })
        (add_connection connection_id user_id admin s).connections_by_user_id
        = s.connections_by_user_id := by
      rw [husers, modifyA_modifyA]
      refine modifyA_fix ?_
      intro v hv
      rw [hl] at hv
      cases hv
      simp only []
      rw [hrem]
    have hconnsFinal : eraseA connection_id
        (add_connection connection_id user_id admin s).connections
        = s.connections := by
      rw [hconnsAdd]
      exact eraseA_upsert_of_none _ hc
    simp only [Prod.mk.injEq]
    refine ⟨by trivial, ?_⟩
    rw [hconnsFinal, husersFinal]
    rfl
  | false =>
    have hl : lookupA user_id s.connections_by_user_id = none := by
      rw [containsKeyA] at hcont
      cases hll : lookupA user_id s.connections_by_user_id with
      | none => rfl
      | some u0 => rw [hll] at hcont; simp at hcont
    have husers : (add_connection connection_id user_id admin s).connections_by_user_id
        = s.connections_by_user_id ++
          [(user_id, { connection_ids := insertS connection_id [], room := none })] := by
      unfold add_connection
      simp only [hcont, if_false, Bool.false_eq_true, ite_false]
    have hlook : lookupA user_id
        (add_connection connection_id user_id admin s).connections_by_user_id
        = some { connection_ids := insertS connection_id [], room := none } := by
      rw [husers, lookupA_append_of_none _ hl]
      simp [lookupA]
    have hrem : removeS connection_id (insertS connection_id ([] : List Nat))
        = [] := by
      simp [insertS, removeS]
    rw [removeConnectionFinish_eq_empty hlook hfresh (by simp only []; exact hrem)]
    have husersFinal : eraseA user_id
        (add_connection connection_id user_id admin s).connections_by_user_id
        = s.connections_by_user_id := by
      rw [husers, eraseA_append, eraseA_of_lookup_none hl]
      simp [eraseA]
    have hconnsFinal : eraseA connection_id
        (add_connection connection_id user_id admin s).connections
        = s.connections := by
      rw [hconnsAdd]
      exact eraseA_upsert_of_none _ hc
    simp only [Prod.mk.injEq]
    refine ⟨by trivial, ?_⟩
    rw [hconnsFinal, husersFinal]
    rfl

/-- **C5 counterexample.**  `sC5` holds a user entry with an empty connection
set (no API sequence produces one, but the claim quantifies over *every*
store); connection 1 is absent from its `connections` — yet
`add_connection(1, 10, false)` followed by `remove_connection(1)` succeeds
and drops the user entry, yielding a store different from `sC5`. -/
theorem c5_counterexample :
    lookupA 1 sC5.connections = none ∧
    (remove_connection 1 (add_connection 1 10 false sC5)).1.isOk = true ∧
    (remove_connection 1 (add_connection 1 10 false sC5)).2 ≠ sC5 := by
  decide

/-- **C5 witness**: the amended round trip applied to `sC5w` (one existing
connection of user 70) with the fresh connection 8 of user 80. -/
theorem c5_witness :
    remove_connection 8 (add_connection 8 80 false sC5w)
      = (.ok { user_id := 80, hosted_projects := [], guest_project_ids := [],
               contact_ids := [] }, sC5w) :=
  c5_add_remove_roundtrip_amended 8 80 false sC5w (by decide) (by decide)

/-! ## Claim C6: equations for every branch of `call` -/

theorem call_eq_err_nofrom {room_id from_connection_id to_user_id : Nat}
    {s : Store} (hf : lookupA from_connection_id s.connections = none) :
    call room_id from_connection_id to_user_id s
      = (.error unknownConnectionMsg, s) := by
  unfold call user_id_for_connection
  rw [hf]

theorem call_eq_err_notouser {room_id from_connection_id to_user_id : Nat}
    {s : Store} {fromConn : ConnectionState}
    (hf : lookupA from_connection_id s.connections = some fromConn)
    (ht : lookupA to_user_id s.connections_by_user_id = none) :
    call room_id from_connection_id to_user_id s
      = (.error noSuchConnectionMsg, s) := by
  unfold call
  rw [user_id_for_connection_some hf]
  simp only []
  rw [ht]

theorem call_eq_err_busy {room_id from_connection_id to_user_id : Nat}
    {s : Store} {fromConn : ConnectionState} {toUcs : UserConnectionState}
    (hf : lookupA from_connection_id s.connections = some fromConn)
    (ht : lookupA to_user_id s.connections_by_user_id = some toUcs)
    (hb : toUcs.room ≠ none) :
    call room_id from_connection_id to_user_id s
      = (.error recipientBusyMsg, s) := by
  unfold call
  rw [user_id_for_connection_some hf]
  simp only []
  rw [ht]
  simp only []
  rw [if_pos hb]

theorem call_eq_err_noroom {room_id from_connection_id to_user_id : Nat}
    {s : Store} {fromConn : ConnectionState} {toUcs : UserConnectionState}
    (hf : lookupA from_connection_id s.connections = some fromConn)
    (ht : lookupA to_user_id s.connections_by_user_id = some toUcs)
    (hb : toUcs.room = none)
    (hr : lookupA room_id s.rooms = none) :
    call room_id from_connection_id to_user_id s = (.error noSuchRoomMsg, s) := by
  unfold call
  rw [user_id_for_connection_some hf]
  simp only []
  rw [ht]
  simp only []
  rw [if_neg (by simp [hb])]
  rw [hr]

theorem call_eq_err_notparticipant {room_id from_connection_id to_user_id : Nat}
    {s : Store} {fromConn : ConnectionState} {toUcs : UserConnectionState}
    {room : Room}
    (hf : lookupA from_connection_id s.connections = some fromConn)
    (ht : lookupA to_user_id s.connections_by_user_id = some toUcs)
    (hb : toUcs.room = none)
    (hr : lookupA room_id s.rooms = some room)
    (hpart : room.participants.any
      (fun participant => participant.peer_id = from_connection_id) = false) :
    call room_id from_connection_id to_user_id s = (.error noSuchRoomMsg, s) := by
  unfold call
  rw [user_id_for_connection_some hf]
  simp only []
  rw [ht]
  simp only []
  rw [if_neg (by simp [hb])]
  rw [hr]
  simp only []
  rw [if_pos (by rw [hpart]; simp)]

theorem call_eq_err_dup {room_id from_connection_id to_user_id : Nat}
    {s : Store} {fromConn : ConnectionState} {toUcs : UserConnectionState}
    {room : Room}
    (hf : lookupA from_connection_id s.connections = some fromConn)
    (ht : lookupA to_user_id s.connections_by_user_id = some toUcs)
    (hb : toUcs.room = none)
    (hr : lookupA room_id s.rooms = some room)
    (hpart : room.participants.any
      (fun participant => participant.peer_id = from_connection_id) = true)
    (hdup : room.pending_user_ids.any (fun user_id => user_id = to_user_id)
      = true) :
    call room_id from_connection_id to_user_id s
      = (.error duplicateCallMsg, s) := by
  unfold call
  rw [user_id_for_connection_some hf]
  simp only []
  rw [ht]
  simp only []
  rw [if_neg (by simp [hb])]
  rw [hr]
  simp only []
  rw [if_neg (by rw [hpart]; simp)]
  rw [if_pos hdup]

theorem call_eq_ok {room_id from_connection_id to_user_id : Nat}
    {s : Store} {fromConn : ConnectionState} {toUcs : UserConnectionState}
    {room : Room}
    (hf : lookupA from_connection_id s.connections = some fromConn)
    (ht : lookupA to_user_id s.connections_by_user_id = some toUcs)
    (hb : toUcs.room = none)
    (hr : lookupA room_id s.rooms = some room)
    (hpart : room.participants.any
      (fun participant => participant.peer_id = from_connection_id) = true)
    (hdup : room.pending_user_ids.any (fun user_id => user_id = to_user_id)
      = false) :
    call room_id from_connection_id to_user_id s
      = (.ok (fromConn.user_id, connection_ids_for_user to_user_id s,
          { room with pending_user_ids := room.pending_user_ids ++ [to_user_id] }),
         callSuccessStore room_id to_user_id
           { room with pending_user_ids := room.pending_user_ids ++ [to_user_id] }
           s) := by
  unfold call
  rw [user_id_for_connection_some hf]
  simp only []
  rw [ht]
  simp only []
  rw [if_neg (by simp [hb])]
  rw [hr]
  simp only []
  rw [if_neg (by rw [hpart]; simp)]
  rw [if_neg (by rw [hdup]; simp)]

/-- **C6 (amended).**  `call` errors iff one of its *six* guards fails: the
caller's connection is unknown, the invitee has no user entry, the invitee's
room state is not `None` (RecipientBusy), the room does not exist, the
caller is not a participant of the room (NotInRoom), or the invitee is
already pending (DuplicateInvite).  On success it appends the invitee to
`pending_user_ids` and sets the invitee's room state to `Calling{room_id}`,
leaving all other state unchanged.  (The claim lists only the last-three-named
guards; the existence guards also produce errors — see the counterexample.) -/
theorem c6_call_guards_amended (room_id from_connection_id to_user_id : Nat)
    (s : Store) :
    ((call room_id from_connection_id to_user_id s).1.isOk = false ↔
      lookupA from_connection_id s.connections = none ∨
      lookupA to_user_id s.connections_by_user_id = none ∨
      (∃ toUcs, lookupA to_user_id s.connections_by_user_id = some toUcs ∧
        toUcs.room ≠ none) ∨
      lookupA room_id s.rooms = none ∨
      (∃ room, lookupA room_id s.rooms = some room ∧
        ¬ ∃ p ∈ room.participants, p.peer_id = from_connection_id) ∨
      (∃ room, lookupA room_id s.rooms = some room ∧
        to_user_id ∈ room.pending_user_ids)) ∧
    (∀ from_user_id to_connection_ids room',
      (call room_id from_connection_id to_user_id s).1
        = .ok (from_user_id, to_connection_ids, room') →
      ∃ fromConn room,
        lookupA from_connection_id s.connections = some fromConn ∧
        from_user_id = fromConn.user_id ∧
        to_connection_ids = connection_ids_for_user to_user_id s ∧
        lookupA room_id s.rooms = some room ∧
        room' = { room with
          pending_user_ids := room.pending_user_ids ++ [to_user_id] } ∧
        (call room_id from_connection_id to_user_id s).2
          = callSuccessStore room_id to_user_id room' s) := by
  cases hf : lookupA from_connection_id s.connections with
  | none =>
    rw [call_eq_err_nofrom hf]
    exact ⟨iff_of_true rfl (Or.inl rfl), by intro a b c h; simp at h⟩
  | some fromConn =>
    cases ht : lookupA to_user_id s.connections_by_user_id with
    | none =>
      rw [call_eq_err_notouser hf ht]
      exact ⟨iff_of_true rfl (Or.inr (Or.inl rfl)), by intro a b c h; simp at h⟩
    | some toUcs =>
      by_cases hb : toUcs.room = none
      case neg =>
        rw [call_eq_err_busy hf ht hb]
        exact ⟨iff_of_true rfl (Or.inr (Or.inr (Or.inl ⟨toUcs, rfl, hb⟩))),
          by intro a b c h; simp at h⟩
      case pos =>
        cases hr : lookupA room_id s.rooms with
        | none =>
          rw [call_eq_err_noroom hf ht hb hr]
          exact ⟨iff_of_true rfl (Or.inr (Or.inr (Or.inr (Or.inl rfl)))),
            by intro a b c h; simp at h⟩
        | some room =>
          cases hpart : room.participants.any
              (fun participant => participant.peer_id = from_connection_id) with
          | false =>
            rw [call_eq_err_notparticipant hf ht hb hr hpart]
            refine ⟨iff_of_true rfl
              (Or.inr (Or.inr (Or.inr (Or.inr (Or.inl ⟨room, rfl, ?_⟩))))),
              by intro a b c h; simp at h⟩
            intro hex
            obtain ⟨p, hp1, hp2⟩ := hex
            have hany : room.participants.any
                (fun participant => participant.peer_id = from_connection_id)
                = true := by
              rw [List.any_eq_true]
              exact ⟨p, hp1, by simpa using hp2⟩
            rw [hpart] at hany
            simp at hany
          | true =>
            cases hdup : room.pending_user_ids.any
                (fun user_id => user_id = to_user_id) with
            | true =>
              rw [call_eq_err_dup hf ht hb hr hpart hdup]
              have hmem : to_user_id ∈ room.pending_user_ids := by
                rw [List.any_eq_true] at hdup
                obtain ⟨u, hu1, hu2⟩ := hdup
                have hu3 : u = to_user_id := by simpa using hu2
                exact hu3 ▸ hu1
              exact ⟨iff_of_true rfl
                (Or.inr (Or.inr (Or.inr (Or.inr (Or.inr ⟨room, rfl, hmem⟩))))),
                by intro a b c h; simp at h⟩
            | false =>
              rw [call_eq_ok hf ht hb hr hpart hdup]
              constructor
              · refine iff_of_false
                  (by intro hcon; simp [Except.isOk, Except.toBool] at hcon) ?_
                rintro (h | h | ⟨tu, h1, h2⟩ | h | ⟨rm, h1, h2⟩ | ⟨rm, h1, h2⟩)
                · simp at h
                · simp at h
                · cases h1; exact h2 hb
                · simp at h
                · cases h1
                  apply h2
                  rw [List.any_eq_true] at hpart
                  obtain ⟨p, hp1, hp2⟩ := hpart
                  exact ⟨p, hp1, by simpa using hp2⟩
                · cases h1
                  have hany : room.pending_user_ids.any
                      (fun user_id => user_id = to_user_id) = true := by
                    rw [List.any_eq_true]
                    exact ⟨to_user_id, h2, by simp⟩
                  rw [hdup] at hany
                  simp at hany
              · intro a b c h
                simp only [Prod.mk.injEq, Except.ok.injEq] at h
                obtain ⟨h1, h2, h3⟩ := h
                refine ⟨fromConn, room, rfl, h1.symm, h2.symm, rfl, h3.symm, ?_⟩
                rw [← h3]

/-- **C6 counterexample.**  In `sC6` (connection 1 created room 0; user 20
has no connection), `call(0, 1, 20)` errors even though none of the claim's
three listed guards fails: the invitee has no room state at all (so "room
state is not None" is false), the caller *is* a participant of room 0, and
the invitee is not pending. -/
theorem c6_counterexample :
    (call 0 1 20 sC6).1 = .error noSuchConnectionMsg ∧
    (call 0 1 20 sC6).1.isOk = false ∧
    lookupA 20 sC6.connections_by_user_id = none ∧
    ((lookupA 0 sC6.rooms).any (fun r =>
      r.participants.any (fun p => decide (p.peer_id = 1)))) = true ∧
    ((lookupA 0 sC6.rooms).any (fun r =>
      decide (20 ∈ r.pending_user_ids))) = false := by
  decide

/-- **C6 witness**: the amended guard characterisation applied to the
concrete store `sC6w`. -/
theorem c6_witness :
    (call 0 1 20 sC6w).1.isOk = false ↔
      lookupA 1 sC6w.connections = none ∨
      lookupA 20 sC6w.connections_by_user_id = none ∨
      (∃ toUcs, lookupA 20 sC6w.connections_by_user_id = some toUcs ∧
        toUcs.room ≠ none) ∨
      lookupA 0 sC6w.rooms = none ∨
      (∃ room, lookupA 0 sC6w.rooms = some room ∧
        ¬ ∃ p ∈ room.participants, p.peer_id = 1) ∨
      (∃ room, lookupA 0 sC6w.rooms = some room ∧ 20 ∈ room.pending_user_ids) :=
  (c6_call_guards_amended 0 1 20 sC6w).1

/-! ## Claim C7 -/

theorem lookupA_eraseFold (removed : List Nat) :
    ∀ (e : AList Nat Entry) (k : Nat),
      lookupA k (removed.foldl (fun e entry_id => eraseA entry_id e) e)
        = if k ∈ removed then none else lookupA k e := by
  induction removed with
  | nil => intro e k; simp
  | cons hd t ih =>
    intro e k
    rw [List.foldl_cons, ih]
    by_cases hk : k ∈ t
    · simp [hk]
    · by_cases hkh : k = hd
      · subst hkh
        simp [hk, lookupA_eraseA_self]
      · simp [hk, hkh, lookupA_eraseA_ne k hd _ hkh]

theorem lastUpdatedEntry_cons (k : Nat) (u : Entry) (rest : List Entry) :
    lastUpdatedEntry k (u :: rest)
      = match lastUpdatedEntry k rest with
        | some e => some e
        | none => if u.id = k then some u else none := by
  unfold lastUpdatedEntry
  rw [List.reverse_cons, List.find?_append]
  cases h : List.find? (fun e => decide (e.id = k)) rest.reverse with
  | some e => simp [h]
  | none =>
    simp only [h, Option.none_orElse]
    simp only [List.find?]
    by_cases hk : u.id = k
    · simp [hk]
    · simp [hk]

theorem lookupA_upsertFold (updated : List Entry) :
    ∀ (e : AList Nat Entry) (k : Nat),
      lookupA k (updated.foldl (fun e entry => upsert entry.id entry e) e)
        = match lastUpdatedEntry k updated with
          | some entry => some entry
          | none => lookupA k e := by
  induction updated with
  | nil => intro e k; simp [lastUpdatedEntry]
  | cons u rest ih =>
    intro e k
    rw [List.foldl_cons, ih, lastUpdatedEntry_cons]
    cases h : lastUpdatedEntry k rest with
    | some entry => simp
    | none =>
      simp only []
      by_cases hk : u.id = k
      · cases hk
        rw [if_pos rfl, lookupA_upsert_self]
      · rw [if_neg hk]
        exact lookupA_upsert_ne k u.id u e (fun e' => hk e'.symm)

/-- **C7.**  For an online project where the caller is host or guest,
`update_worktree` rewrites the worktree's entry map to
`(old − removed) ∪ updated` (updated wins on id collisions, later updates
win within the list), sets `scan_id` and `is_complete := is_last_update`,
sets the root name, and reports `metadata_changed` iff the supplied root
name differs from the stored one (`""` for a worktree created on demand);
if the project is offline it fails with the project-offline error and leaves
the store unchanged. -/
theorem c7_update_worktree_spec (connection_id project_id worktree_id : Nat)
    (worktree_root_name : String) (removed_entries : List Nat)
    (updated_entries : List Entry) (scan_id : Nat) (is_last_update : Bool)
    (s : Store) (proj : Project)
    (hp : lookupA project_id s.projects = some proj)
    (hacc : proj.host_connection_id = connection_id ∨
      containsKeyA connection_id proj.guests = true) :
    (proj.online = false →
      update_worktree connection_id project_id worktree_id worktree_root_name
        removed_entries updated_entries scan_id is_last_update s
        = (.error projectOfflineMsg, s)) ∧
    (proj.online = true →
      ∃ projF wt',
        (update_worktree connection_id project_id worktree_id worktree_root_name
          removed_entries updated_entries scan_id is_last_update s).1
          = .ok (proj.connection_ids,
              decide (worktree_root_name
                ≠ ((lookupA worktree_id proj.worktrees).getD default).root_name)) ∧
        (update_worktree connection_id project_id worktree_id worktree_root_name
          removed_entries updated_entries scan_id is_last_update s).2.projects
          = upsert project_id projF s.projects ∧
        projF.worktrees = upsert worktree_id wt' proj.worktrees ∧
        wt'.root_name = worktree_root_name ∧
        wt'.scan_id = scan_id ∧ wt'.is_complete = is_last_update ∧
        (∀ k, lookupA k wt'.entries
          = match lastUpdatedEntry k updated_entries with
            | some entry => some entry
            | none => if k ∈ removed_entries then none
                else lookupA k
                  ((lookupA worktree_id proj.worktrees).getD default).entries)) := by
  constructor
  · intro ho
    unfold update_worktree
    rw [hp]
    simp only []
    rw [if_pos hacc, ho]
    simp
  · intro ho
    unfold update_worktree
    rw [hp]
    simp only []
    rw [if_pos hacc, ho]
    simp only [Bool.not_true, Bool.false_eq_true, if_false, ite_false]
    refine ⟨_, _, by trivial, by trivial, by trivial, by trivial, by trivial,
      by trivial, ?_⟩
    intro k
    simp only []
    rw [lookupA_upsertFold, lookupA_eraseFold]

/-- **C7 witness**: the specification applied to `sC7` (host connection 1,
online project 100, worktree 5 created on demand). -/
theorem c7_witness :
    (projC7.online = false →
      update_worktree 1 100 5 "root" [3] [{ id := 3, path := "a" }] 7 true sC7
        = (.error projectOfflineMsg, sC7)) ∧
    (projC7.online = true →
      ∃ projF wt',
        (update_worktree 1 100 5 "root" [3] [{ id := 3, path := "a" }] 7 true
          sC7).1
          = .ok (projC7.connection_ids,
              decide ("root"
                ≠ ((lookupA 5 projC7.worktrees).getD default).root_name)) ∧
        (update_worktree 1 100 5 "root" [3] [{ id := 3, path := "a" }] 7 true
          sC7).2.projects = upsert 100 projF sC7.projects ∧
        projF.worktrees = upsert 5 wt' projC7.worktrees ∧
        wt'.root_name = "root" ∧
        wt'.scan_id = 7 ∧ wt'.is_complete = true ∧
        (∀ k, lookupA k wt'.entries
          = match lastUpdatedEntry k [{ id := 3, path := "a" }] with
            | some entry => some entry
            | none => if k ∈ [3] then none
                else lookupA k ((lookupA 5 projC7.worktrees).getD default).entries)) :=
  c7_update_worktree_spec 1 100 5 "root" [3] [{ id := 3, path := "a" }] 7 true
    sC7 projC7 (by decide) (by decide)

theorem is_active_since_iff (p : Project) (t : Int) :
    p.is_active_since t = true
      ↔ ∃ collab ∈ p.guests.map Prod.snd ++ [p.host],
          ∃ activeTime, collab.last_activity = some activeTime
            ∧ t < activeTime := by
  unfold Project.is_active_since
  rw [List.any_eq_true]
  constructor
  · rintro ⟨c, hc, hcp⟩
    refine ⟨c, hc, ?_⟩
    cases hl : c.last_activity with
    | none => rw [hl] at hcp; simp at hcp
    | some activeTime =>
      rw [hl] at hcp
      simp only [decide_eq_true_eq] at hcp
      exact ⟨activeTime, rfl, hcp⟩
  · rintro ⟨c, hc, activeTime, hl, hlt⟩
    refine ⟨c, hc, ?_⟩
    rw [hl]
    simpa using hlt

theorem metricsStep_eq (s : Store) (w : Int) (acc : Nat × Nat × Nat)
    (pp : Nat × Project) :
    metricsStep s w acc pp
      = (acc.1 + (if hostNonAdmin s pp then 1 else 0),
         acc.2.1 + (if hostNonAdmin s pp && pp.2.is_active_since w
           then 1 else 0),
         acc.2.2 + (if hostNonAdmin s pp && pp.2.is_active_since w
             && !pp.2.guests.isEmpty then 1 else 0)) := by
  unfold metricsStep hostNonAdmin
  cases hcon : lookupA pp.2.host_connection_id s.connections with
  | none => simp
  | some connection =>
    simp only []
    by_cases hadm : connection.admin = true
    · simp [hadm]
    · simp only [Bool.not_eq_true] at hadm
      simp only [hadm, Bool.not_false, if_true, Bool.true_and]
      by_cases hact : pp.2.is_active_since w = true
      · simp only [hact, if_true, Bool.true_and]
        by_cases hg : pp.2.guests.isEmpty = true
        · simp [hg]
        · simp [Bool.eq_false_iff.mpr hg]
      · simp [Bool.eq_false_iff.mpr hact]

theorem metricsFold_spec (s : Store) (w : Int) (l : List (Nat × Project)) :
    ∀ a b c : Nat,
    l.foldl (metricsStep s w) (a, b, c)
      = (a + l.countP (fun pp => hostNonAdmin s pp),
         b + l.countP (fun pp =>
           hostNonAdmin s pp && pp.2.is_active_since w),
         c + l.countP (fun pp =>
           hostNonAdmin s pp && pp.2.is_active_since w
             && !pp.2.guests.isEmpty)) := by
  induction l with
  | nil => intro a b c; simp
  | cons hd t ih =>
    intro a b c
    rw [List.foldl_cons, metricsStep_eq, ih]
    simp only [List.countP_cons, Prod.mk.injEq]
    by_cases h1 : hostNonAdmin s hd = true
    · by_cases h2 : hd.2.is_active_since w = true
      · by_cases h3 : hd.2.guests.isEmpty = true
        · simp [h1, h2, h3]
          omega
        · simp [h1, h2, Bool.eq_false_iff.mpr h3]
          omega
      · simp [h1, Bool.eq_false_iff.mpr h2]
        omega
    · simp [Bool.eq_false_iff.mpr h1]

/-- **C8 (confirmed)**: `metrics` counts exactly the non-admin connections;
among projects whose host connection exists and is non-admin it counts all
of them as registered, those with some collaborator (host or a guest) whose
`last_activity` is strictly after `now - 60` as active, and among those the
ones with at least one guest as shared. -/
theorem c8_metrics_spec (s : Store) (now : Int) :
    (metrics s now).connections
        = (s.connections.filter (fun c => !c.2.admin)).length
    ∧ (metrics s now).registered_projects
        = s.projects.countP (fun pp => hostNonAdmin s pp)
    ∧ (metrics s now).active_projects
        = s.projects.countP (fun pp =>
            hostNonAdmin s pp && pp.2.is_active_since (now - 60))
    ∧ (metrics s now).shared_projects
        = s.projects.countP (fun pp =>
            hostNonAdmin s pp && pp.2.is_active_since (now - 60)
              && !pp.2.guests.isEmpty)
    ∧ (∀ p : Project, p.is_active_since (now - 60) = true
        ↔ ∃ collab ∈ p.guests.map Prod.snd ++ [p.host],
            ∃ activeTime, collab.last_activity = some activeTime
              ∧ now - 60 < activeTime) := by
  have hfold := metricsFold_spec s (now - activeProjectTimeout) s.projects 0 0 0
  refine ⟨rfl, ?_, ?_, ?_, fun p => is_active_since_iff p (now - 60)⟩
  · show (s.projects.foldl
      (metricsStep s (now - activeProjectTimeout)) (0, 0, 0)).1 = _
    rw [hfold]
    simp [activeProjectTimeout]
  · show (s.projects.foldl
      (metricsStep s (now - activeProjectTimeout)) (0, 0, 0)).2.1 = _
    rw [hfold]
    simp [activeProjectTimeout]
  · show (s.projects.foldl
      (metricsStep s (now - activeProjectTimeout)) (0, 0, 0)).2.2 = _
    rw [hfold]
    simp [activeProjectTimeout]

theorem lookupA_append_of_some {K V : Type} [DecidableEq K] {k : K} {v : V}
    {l1 : AList K V} (l2 : AList K V) (h : lookupA k l1 = some v) :
    lookupA k (l1 ++ l2) = some v := by
  induction l1 with
  | nil => simp [lookupA] at h
  | cons hd t ih =>
    obtain ⟨k', v'⟩ := hd
    by_cases hk : k' = k
    · subst hk
      simp only [lookupA, if_pos rfl] at h ⊢
      exact h
    · simp only [List.cons_append, lookupA, if_neg hk] at h ⊢
      exact ih h

/-- **C9 (confirmed)**: re-adding an existing `connection_id` under a new
user silently overwrites the connection row with a fresh one (empty
`projects`, `requested_projects`, `channels`), records `connection_id` in
the new user's connection set, and unwinds nothing: the old user's
`connections_by_user_id` entry is untouched and still lists
`connection_id`, and `projects`, `channels`, `rooms`, `next_room_id` are
unchanged. -/
theorem c9_add_connection_overwrites (connection_id user_id : Nat)
    (admin : Bool) (s : Store) (old : ConnectionState)
    (oldUcs : UserConnectionState)
    (_hc : lookupA connection_id s.connections = some old)
    (hne : old.user_id ≠ user_id)
    (hu : lookupA old.user_id s.connections_by_user_id = some oldUcs)
    (hmem : connection_id ∈ oldUcs.connection_ids) :
    lookupA connection_id
        (add_connection connection_id user_id admin s).connections
      = some ⟨user_id, admin, [], [], []⟩
    ∧ connection_id ∈ connection_ids_for_user user_id
        (add_connection connection_id user_id admin s)
    ∧ lookupA old.user_id
        (add_connection connection_id user_id admin s).connections_by_user_id
      = some oldUcs
    ∧ connection_id ∈ oldUcs.connection_ids
    ∧ (add_connection connection_id user_id admin s).projects = s.projects
    ∧ (add_connection connection_id user_id admin s).channels = s.channels
    ∧ (add_connection connection_id user_id admin s).rooms = s.rooms
    ∧ (add_connection connection_id user_id admin s).next_room_id
      = s.next_room_id := by
  unfold add_connection connection_ids_for_user
  simp only []
  by_cases hck : containsKeyA user_id s.connections_by_user_id = true
  · rw [if_pos hck]
    unfold containsKeyA at hck
    obtain ⟨u, hu2⟩ := Option.isSome_iff_exists.mp hck
    refine ⟨lookupA_upsert_self _ _ _, ?_, ?_, hmem,
      by trivial, by trivial, by trivial, by trivial⟩
    · rw [lookupA_modifyA_self, hu2]
      exact mem_insertS.mpr (Or.inr rfl)
    · rw [lookupA_modifyA_ne _ _ _ _ hne]
      exact hu
  · rw [if_neg hck]
    unfold containsKeyA at hck
    have hnone : lookupA user_id s.connections_by_user_id = none :=
      Option.not_isSome_iff_eq_none.mp (by simpa using hck)
    refine ⟨lookupA_upsert_self _ _ _, ?_, ?_, hmem,
      by trivial, by trivial, by trivial, by trivial⟩
    · rw [lookupA_append_of_none _ hnone]
      simp [lookupA, insertS]
    · exact lookupA_append_of_some _ hu

/-- **C9 witness**: `c9_add_connection_overwrites` at `sC9`, re-adding
connection 1 (previously user 10) under user 20 as admin. -/
theorem c9_witness :
    lookupA 1 sC9.connections = some ⟨10, false, [], [], []⟩
    ∧ lookupA 1 (add_connection 1 20 true sC9).connections
        = some ⟨20, true, [], [], []⟩
    ∧ 1 ∈ connection_ids_for_user 20 (add_connection 1 20 true sC9)
    ∧ lookupA 10 (add_connection 1 20 true sC9).connections_by_user_id
        = some ⟨[1], none⟩ := by
  have h := c9_add_connection_overwrites 1 20 true sC9 ⟨10, false, [], [], []⟩
    ⟨[1], none⟩ (by decide) (by decide) (by decide) (by decide)
  exact ⟨by decide, h.1, h.2.1, h.2.2.1⟩

/-- **C10 (confirmed)**: `call` checks the invitee's busy state before any
room guard: whenever `from_connection_id` exists and `to_user_id`'s room
state is not `none`, `call` returns the recipient-busy error with the store
unchanged, for every `room_id` — including ids that name no room or rooms
the caller is not in. -/
theorem c10_busy_checked_first (room_id from_connection_id to_user_id : Nat)
    (s : Store) (fromConn : ConnectionState) (toUcs : UserConnectionState)
    (hf : lookupA from_connection_id s.connections = some fromConn)
    (ht : lookupA to_user_id s.connections_by_user_id = some toUcs)
    (hb : toUcs.room ≠ none) :
    call room_id from_connection_id to_user_id s
      = (.error recipientBusyMsg, s) :=
  call_eq_err_busy hf ht hb

/-- **C10 witness**: `c10_busy_checked_first` at `sC10` with `room_id = 99`,
which names no room at all: the busy error still wins. -/
theorem c10_witness :
    lookupA 1 sC10.connections = some ⟨10, false, [], [], []⟩
    ∧ lookupA 20 sC10.connections_by_user_id
        = some ⟨[2], some (.calling 0)⟩
    ∧ lookupA 99 sC10.rooms = none
    ∧ call 99 1 20 sC10 = (.error recipientBusyMsg, sC10) := by
  refine ⟨by decide, by decide, by decide, ?_⟩
  exact c10_busy_checked_first 99 1 20 sC10 ⟨10, false, [], [], []⟩
    ⟨[2], some (.calling 0)⟩ (by decide) (by decide) (by decide)

end ZedStore
